import Mathlib

/-!
Shallow embedding of the DAVIS event-stream acquisition and translation
pipeline of libcaer (file `src/unnamed/part_000`, chiefly the functions
`davisEventTranslator` and `davisCommonDataStart`).

Machine integers are modelled as `Nat` (unsigned registers hold their
two's-complement bit pattern, reduced `% 2^w` exactly where the C code's
width forces a reduction) or as `Int` where the C computes in signed
arithmetic before truncating.  The opaque caer packet API
(`caerXXXEventPacketGetEvent` / `SetField` / `Validate` plus the position
counters kept in `davisState`) is modelled by a `Packet` record whose
`slots` function is the backing event array; mutating the event returned
by `GetEvent` is modelled as a pointwise update of `slots` at `position`.
The float IMU scale conversions (`/ imuAccelScale` etc.) are not needed by
any claim; the raw combined `int16` samples are stored instead, and the
scale configuration registers are kept as their raw 2-bit configuration
values.
-/

namespace LibcaerDavis

/-- 2^32, the modulus of the C `uint32_t` arithmetic. -/
def U32MOD : Nat := 4294967296

/-- 2^16, the modulus of the C `uint16_t` arithmetic (`U16T`). -/
def U16MOD : Nat := 65536

/-- Reinterpret a 32-bit pattern (a `Nat` below 2^32) as the C `int32_t`
it denotes. -/
def toInt32 (n : Nat) : Int := if n < 2147483648 then (n : Int) else (n : Int) - 4294967296

/-- Truncate a signed intermediate result to 16 bits (`U16T` applied to an
`int` expression): the nonnegative remainder modulo 2^16. -/
def u16ofInt (z : Int) : Nat := (z % 65536).toNat

/-- Reinterpret a 16-bit pattern as the C `int16_t` it denotes (the
`(int16_t)` casts in the IMU assembly). -/
def toInt16 (n : Nat) : Int := if n < 32768 then (n : Int) else (n : Int) - 65536

/-- Pointwise update of a backing array modelled as a function. -/
def upd {α : Type} (f : Nat → α) (i : Nat) (a : α) : Nat → α :=
  fun j => if j = i then a else f j

/-- The chip-identifier comparisons the decoder performs
(`state->chipID == CHIP_DAVIS208` and `== CHIP_DAVISRGB`); the numeric
chip identifiers live in the absent `davis_common.h`, so only the two
distinguished outcomes are modelled. -/
inductive ChipKind
  | davis208
  | davisRGB
  | generic
deriving DecidableEq, Repr

/-- `APS_READOUT_RESET` / `APS_READOUT_SIGNAL` (`APS_READOUT_TYPES_NUM = 2`). -/
inductive ReadoutType
  | reset
  | signal
deriving DecidableEq, Repr

/-- The special-event kinds the translator emits
(`TIMESTAMP_RESET`, `EXTERNAL_INPUT_*`, `DVS_ROW_ONLY`); `none0` is the
all-zero content of a freshly allocated slot. -/
inductive SpecialKind
  | none0
  | timestampReset
  | extInputFalling
  | extInputRising
  | extInputPulse
  | dvsRowOnly
deriving DecidableEq, Repr

structure PolarityEvent where
  timestamp : Nat
  x : Nat
  y : Nat
  polarity : Bool
  valid : Bool
deriving DecidableEq, Repr

structure SpecialEvent where
  timestamp : Nat
  kind : SpecialKind
  data : Nat
  valid : Bool
deriving DecidableEq, Repr

structure FrameEvent where
  tsStartOfFrame : Nat
  tsEndOfFrame : Nat
  tsStartOfExposure : Nat
  tsEndOfExposure : Nat
  lengthX : Nat
  lengthY : Nat
  channels : Nat
  pixels : Nat → Nat
  valid : Bool

/-- Raw IMU6 event: the combined big-endian `int16` samples, before the
floating-point scale conversion (not modelled, unused by the claims). -/
structure IMU6Event where
  timestamp : Nat
  accelX : Int
  accelY : Int
  accelZ : Int
  temp : Int
  gyroX : Int
  gyroY : Int
  gyroZ : Int
  valid : Bool
deriving DecidableEq, Repr

/-- An in-progress caer event packet together with the position counter the
decoder state keeps for it (`currentXXXPacketPosition`). -/
structure Packet (α : Type) where
  capacity : Nat
  slots : Nat → α
  position : Nat

def emptyPolarityEvent : PolarityEvent := ⟨0, 0, 0, false, false⟩
def emptySpecialEvent : SpecialEvent := ⟨0, .none0, 0, false⟩
def emptyFrameEvent : FrameEvent := ⟨0, 0, 0, 0, 0, 0, 0, fun _ => 0, false⟩
def emptyIMU6Event : IMU6Event := ⟨0, 0, 0, 0, 0, 0, 0, 0, false⟩

/-- A freshly allocated packet: `caerXXXEventPacketAllocate` zeroes the
event memory and the corresponding position counter is reset to 0. -/
def freshPacket {α : Type} (cap : Nat) (z : α) : Packet α := ⟨cap, fun _ => z, 0⟩

/-- A packet handed to the ring buffer (the ring buffer stores untyped
packet pointers of any of the four modalities). -/
inductive CommittedPacket
  | polarity (p : Packet PolarityEvent)
  | frame (p : Packet FrameEvent)
  | imu6 (p : Packet IMU6Event)
  | special (p : Packet SpecialEvent)

/-- The bounded exchange ring buffer (`ringBufferInit` / `ringBufferPut`). -/
structure RingBuffer where
  capacity : Nat
  items : List CommittedPacket

/-- `ringBufferPut`: succeeds (appending the element) only while the buffer
holds fewer items than its capacity. -/
def ringBufferPut (b : RingBuffer) (x : CommittedPacket) : Option RingBuffer :=
  if b.items.length < b.capacity then some { b with items := b.items ++ [x] } else none

/-- Modelled from the spec: `IMU6_COUNT` is defined in the absent header
`davis_common.h`; the spec fixes the IMU6 scatter-gather assembly at
14 bytes (`imu_count == 14` at IMU-End). -/
def IMU6_COUNT : Nat := 14

/-- Modelled from the spec: `DAVIS_ADC_DEPTH` is defined in the absent
header `davis_common.h`; the spec fixes the ADC depth at 10 bits (the
CDS result is shifted left by `16 − ADC_DEPTH`). -/
def DAVIS_ADC_DEPTH : Nat := 10

/-- The decoder state: the fields of `davis_state` that
`davisEventTranslator` reads or writes, plus the configuration fields
seeded at `davisOpen` / `davisCommonDataStart`, plus two ghost counters
(`emittedPolarity`, `emittedRowOnly`) that increment exactly where the
decoder writes a polarity event or a DVS_ROW_ONLY special event. -/
structure DavisState where
  -- configuration fixed at Open time
  chipKind : ChipKind
  dvsSizeX : Nat
  dvsSizeY : Nat
  dvsInvertXY : Bool
  apsSizeX : Nat
  apsSizeY : Nat
  apsChannels : Nat
  apsInvertXY : Bool
  apsFlipX : Bool
  apsFlipY : Bool
  apsWindow0StartX : Nat
  apsWindow0StartY : Nat
  apsWindow0SizeX : Nat
  apsWindow0SizeY : Nat
  maxPolarityPacketSize : Nat
  maxSpecialPacketSize : Nat
  maxFramePacketSize : Nat
  maxIMU6PacketSize : Nat
  maxPolarityPacketInterval : Int
  maxSpecialPacketInterval : Int
  maxFramePacketInterval : Int
  maxIMU6PacketInterval : Int
  -- timestamp reconstruction
  wrapAdd : Nat
  lastTimestamp : Nat
  currentTimestamp : Nat
  dvsTimestamp : Nat
  -- DVS Y→X latch
  dvsGotY : Bool
  dvsLastY : Nat
  -- APS frame assembly
  apsCurrentReadoutType : ReadoutType
  apsCountXReset : Nat
  apsCountXSignal : Nat
  apsCountYReset : Nat
  apsCountYSignal : Nat
  apsGlobalShutter : Bool
  apsResetRead : Bool
  apsIgnoreEvents : Bool
  apsRGBPixelOffset : Int
  apsRGBPixelOffsetDirection : Nat
  apsCurrentResetFrame : Nat → Nat
  -- IMU assembly
  imuCount : Nat
  imuTmpData : Nat
  imuIgnoreEvents : Bool
  imuAccelScaleCfg : Nat
  imuGyroScaleCfg : Nat
  -- in-progress packets
  currentPolarityPacket : Packet PolarityEvent
  currentSpecialPacket : Packet SpecialEvent
  currentFramePacket : Packet FrameEvent
  currentIMU6Packet : Packet IMU6Event
  -- exchange buffer
  dataExchangeBuffer : RingBuffer
  -- ghost emission counters
  emittedPolarity : Nat
  emittedRowOnly : Nat

/-- `state->apsCountX[readout]`. -/
def DavisState.apsCountX (s : DavisState) : ReadoutType → Nat
  | .reset => s.apsCountXReset
  | .signal => s.apsCountXSignal

/-- `state->apsCountY[readout]`. -/
def DavisState.apsCountY (s : DavisState) : ReadoutType → Nat
  | .reset => s.apsCountYReset
  | .signal => s.apsCountYSignal

def DavisState.setApsCountY (s : DavisState) (r : ReadoutType) (v : Nat) : DavisState :=
  match r with
  | .reset => { s with apsCountYReset := v }
  | .signal => { s with apsCountYSignal := v }

def DavisState.setApsCountX (s : DavisState) (r : ReadoutType) (v : Nat) : DavisState :=
  match r with
  | .reset => { s with apsCountXReset := v }
  | .signal => { s with apsCountXSignal := v }

/-- Write the special event at the current special position (the caer
`SetTimestamp`/`SetType`/`SetData`/`Validate` calls mutate the slot the
packet API returned for that position; fields the code does not set are
preserved) and advance `currentSpecialPacketPosition`. -/
def emitSpecial (s : DavisState) (f : SpecialEvent → SpecialEvent) : DavisState :=
  let p := s.currentSpecialPacket
  { s with currentSpecialPacket :=
      { p with slots := upd p.slots p.position (f (p.slots p.position)),
               position := p.position + 1 } }

/-- Write the polarity event at the current polarity position (all fields
are set by the code) and advance `currentPolarityPacketPosition`. -/
def emitPolarity (s : DavisState) (e : PolarityEvent) : DavisState :=
  let p := s.currentPolarityPacket
  { s with currentPolarityPacket :=
      { p with slots := upd p.slots p.position e, position := p.position + 1 } }

/-- Mutate the in-progress frame event (the slot at the frame packet's
current position) in place, without advancing the position. -/
def modifyFrameEvent (s : DavisState) (f : FrameEvent → FrameEvent) : DavisState :=
  let p := s.currentFramePacket
  { s with currentFramePacket :=
      { p with slots := upd p.slots p.position (f (p.slots p.position)) } }

/-- Mutate the in-progress IMU6 event in place, without advancing the
position. -/
def modifyIMU6Event (s : DavisState) (f : IMU6Event → IMU6Event) : DavisState :=
  let p := s.currentIMU6Packet
  { s with currentIMU6Packet :=
      { p with slots := upd p.slots p.position (f (p.slots p.position)) } }

/-- `initFrame`: reset the APS readout phase and the per-phase column and
row counters, stamp the start-of-frame timestamp and allocate (zero) the
pixel array of the in-progress frame event with the window-0 geometry. -/
def initFrame (s : DavisState) : DavisState :=
  let s1 := { s with apsCurrentReadoutType := ReadoutType.reset,
                     apsCountXReset := 0, apsCountXSignal := 0,
                     apsCountYReset := 0, apsCountYSignal := 0 }
  modifyFrameEvent s1 (fun e =>
    { e with tsStartOfFrame := s.currentTimestamp,
             lengthX := s.apsWindow0SizeX, lengthY := s.apsWindow0SizeY,
             channels := s.apsChannels, pixels := fun _ => 0 })

/-- Special subtype 1 (timestamp reset): zero the timestamp state and
emit a validated TIMESTAMP_RESET special event carrying UINT32_MAX. -/
def specialTimestampReset (s : DavisState) : DavisState :=
  emitSpecial
    { s with wrapAdd := 0, lastTimestamp := 0, currentTimestamp := 0, dvsTimestamp := 0 }
    (fun e =>
      { e with timestamp := 4294967295, kind := SpecialKind.timestampReset, valid := true })

/-- Special subtypes 2/3/4: external input edge/pulse events at the
current timestamp. -/
def specialExtInput (s : DavisState) (k : SpecialKind) : DavisState :=
  emitSpecial s (fun e =>
    { e with timestamp := s.currentTimestamp, kind := k, valid := true })

/-- Special subtype 5 (IMU6 start): clear the ignore flag, reset the
sample counter, stamp the in-progress IMU6 event. -/
def specialIMU6Start (s : DavisState) : DavisState :=
  modifyIMU6Event { s with imuIgnoreEvents := false, imuCount := 0 }
    (fun e => { e with timestamp := s.currentTimestamp })

/-- Special subtype 7 (IMU6 end): validate and advance only when all 14
sample bytes arrived; otherwise the assembled samples are discarded (the
code only logs). -/
def specialIMU6End (s : DavisState) : DavisState :=
  if s.imuIgnoreEvents then s
  else if s.imuCount = IMU6_COUNT then
    let s1 := modifyIMU6Event s (fun e => { e with valid := true })
    { s1 with currentIMU6Packet :=
        { s1.currentIMU6Packet with position := s1.currentIMU6Packet.position + 1 } }
  else s

/-- Special subtypes 8/9: APS frame start with reset reads enabled
(`gs` selects global vs rolling shutter). -/
def specialAPSFrameStart (s : DavisState) (gs : Bool) : DavisState :=
  initFrame { s with apsIgnoreEvents := false, apsGlobalShutter := gs, apsResetRead := true }

/-- Special subtypes 14/15: APS frame start with reset reads disabled;
the start of exposure is stamped immediately. -/
def specialAPSFrameStartNoReset (s : DavisState) (gs : Bool) : DavisState :=
  modifyFrameEvent
    (initFrame { s with apsIgnoreEvents := false, apsGlobalShutter := gs, apsResetRead := false })
    (fun e => { e with tsStartOfExposure := s.currentTimestamp })

/-- Special subtype 10 (APS frame end): check both per-phase column
counts against the frame width (against 0 for the reset phase when reset
reads are disabled), stamp the end-of-frame timestamp, validate only on
success, and advance the frame position regardless. -/
def specialAPSFrameEnd (s : DavisState) : DavisState :=
  if s.apsIgnoreEvents then s
  else
    let e := s.currentFramePacket.slots s.currentFramePacket.position
    let validFrame :=
      s.apsCountXReset = (if s.apsResetRead then e.lengthX else 0) ∧
      s.apsCountXSignal = e.lengthX
    let s1 := modifyFrameEvent s (fun ev =>
      { ev with tsEndOfFrame := s.currentTimestamp,
                valid := if validFrame then true else ev.valid })
    { s1 with currentFramePacket :=
        { s1.currentFramePacket with position := s1.currentFramePacket.position + 1 } }

/-- Special subtype 11 (APS reset column start). -/
def specialAPSResetColStart (s : DavisState) : DavisState :=
  if s.apsIgnoreEvents then s
  else
    let s1 := { s with apsCurrentReadoutType := ReadoutType.reset, apsCountYReset := 0,
                       apsRGBPixelOffsetDirection := 0, apsRGBPixelOffset := 1 }
    if ¬s.apsGlobalShutter ∧ s.apsCountXReset = 0 then
      modifyFrameEvent s1 (fun e => { e with tsStartOfExposure := s.currentTimestamp })
    else s1

/-- Special subtype 12 (APS signal column start). -/
def specialAPSSignalColStart (s : DavisState) : DavisState :=
  if s.apsIgnoreEvents then s
  else
    let s1 := { s with apsCurrentReadoutType := ReadoutType.signal, apsCountYSignal := 0,
                       apsRGBPixelOffsetDirection := 0, apsRGBPixelOffset := 1 }
    if s.apsCountXSignal = 0 then
      modifyFrameEvent s1 (fun e => { e with tsEndOfExposure := s.currentTimestamp })
    else s1

/-- Special subtype 13 (APS column end); the wrong-row-count check only
logs. -/
def specialAPSColEnd (s : DavisState) : DavisState :=
  if s.apsIgnoreEvents then s
  else
    let r := s.apsCurrentReadoutType
    let s1 := s.setApsCountX r (s.apsCountX r + 1)
    if s.apsGlobalShutter ∧ r = ReadoutType.reset ∧
       s1.apsCountXReset = (s.currentFramePacket.slots s.currentFramePacket.position).lengthX then
      modifyFrameEvent s1 (fun e => { e with tsStartOfExposure := s.currentTimestamp })
    else s1

/-- Special subtypes 16–31 (IMU scale configuration): store the raw 2-bit
scale configurations, set `imuCount = 1` (recovery if IMU-start was
missed). -/
def specialIMUScaleConfig (s : DavisState) (data : Nat) : DavisState :=
  if s.imuIgnoreEvents then s
  else { s with imuAccelScaleCfg := (data >>> 2) &&& 3, imuGyroScaleCfg := data &&& 3,
                imuCount := 1 }

/-- The `case 0` (special event) switch of `davisEventTranslator`,
dispatched on the 12-bit data field. -/
def decodeSpecial (s : DavisState) (data : Nat) : DavisState :=
  if data = 0 then s
  else if data = 1 then specialTimestampReset s
  else if data = 2 then specialExtInput s SpecialKind.extInputFalling
  else if data = 3 then specialExtInput s SpecialKind.extInputRising
  else if data = 4 then specialExtInput s SpecialKind.extInputPulse
  else if data = 5 then specialIMU6Start s
  else if data = 7 then specialIMU6End s
  else if data = 8 then specialAPSFrameStart s true
  else if data = 9 then specialAPSFrameStart s false
  else if data = 10 then specialAPSFrameEnd s
  else if data = 11 then specialAPSResetColStart s
  else if data = 12 then specialAPSSignalColStart s
  else if data = 13 then specialAPSColEnd s
  else if data = 14 then specialAPSFrameStartNoReset s true
  else if data = 15 then specialAPSFrameStartNoReset s false
  else if 16 ≤ data ∧ data ≤ 31 then specialIMUScaleConfig s data
  else s

/-- Flush the orphaned Y as a DVS_ROW_ONLY special event carrying the
previously latched Y at the snapshot timestamp. -/
def emitRowOnly (s : DavisState) : DavisState :=
  { (emitSpecial s (fun e =>
      { e with timestamp := s.dvsTimestamp, kind := SpecialKind.dvsRowOnly,
               data := s.dvsLastY, valid := true }))
    with emittedRowOnly := s.emittedRowOnly + 1 }

/-- Latch the new Y address and snapshot the current timestamp. -/
def latchY (s : DavisState) (data : Nat) : DavisState :=
  { s with dvsLastY := data, dvsGotY := true, dvsTimestamp := s.currentTimestamp }

/-- `case 1`: DVS Y address. -/
def decodeY (s : DavisState) (data : Nat) : DavisState :=
  if s.dvsSizeY ≤ data then s
  else latchY (if s.dvsGotY then emitRowOnly s else s) data

/-- Emit the polarity event completing the latched Y with this X address
(clearing the Y latch). -/
def emitXEvent (s : DavisState) (code data : Nat) : DavisState :=
  let polOn : Bool :=
    if s.chipKind = ChipKind.davis208 ∧ data < 192 then ¬(code = 3) else (code = 3)
  { (emitPolarity s
      { timestamp := s.dvsTimestamp,
        x := if s.dvsInvertXY then s.dvsLastY else data,
        y := if s.dvsInvertXY then data else s.dvsLastY,
        polarity := polOn, valid := true })
    with dvsGotY := false, emittedPolarity := s.emittedPolarity + 1 }

/-- `case 2` / `case 3`: DVS X address with polarity OFF (2) or ON (3). -/
def decodeX (s : DavisState) (code data : Nat) : DavisState :=
  if s.dvsSizeX ≤ data then s
  else emitXEvent s code data

/-- The relative output-frame coordinates of the current APS ADC sample
(`xPos`, `yPos` in `case 4`), after flips, the DAVIS-RGB row offset and
the XY inversion. -/
def apsSampleXY (s : DavisState) (lenX lenY : Nat) : Nat × Nat :=
  let r := s.apsCurrentReadoutType
  let xPos : Nat :=
    if s.apsFlipX then u16ofInt ((lenX : Int) - 1 - (s.apsCountX r : Int))
    else s.apsCountX r % U16MOD
  let yPos0 : Nat :=
    if s.apsFlipY then u16ofInt ((lenY : Int) - 1 - (s.apsCountY r : Int))
    else s.apsCountY r % U16MOD
  let yPos : Nat :=
    if s.chipKind = ChipKind.davisRGB then u16ofInt ((yPos0 : Int) + s.apsRGBPixelOffset)
    else yPos0
  if s.apsInvertXY then (yPos, xPos) else (xPos, yPos)

/-- Linear index into the frame event's pixel array (`pixelPosition`). -/
def apsPixelPosition (s : DavisState) (lenX lenY : Nat) : Nat :=
  (apsSampleXY s lenX lenY).2 * lenX + (apsSampleXY s lenX lenY).1

/-- Absolute staging index into `apsCurrentResetFrame`
(`pixelPositionAbs`), using window-offset coordinates. -/
def apsPixelPositionAbs (s : DavisState) (lenX lenY : Nat) : Nat :=
  ((apsSampleXY s lenX lenY).2 + s.apsWindow0StartY) % U16MOD * s.apsSizeX +
    ((apsSampleXY s lenX lenY).1 + s.apsWindow0StartX) % U16MOD

/-- The CDS pixel value a signal-phase sample stores: the staged reset
value minus the sample (swapped for DAVIS-RGB global shutter), clamped at
zero, left-justified into 16 bits. -/
def cdsPixelValue (rgbGS : Bool) (stagedValue data : Nat) : Nat :=
  let pv0 : Int :=
    if rgbGS then (data : Int) - (stagedValue : Int)
    else (stagedValue : Int) - (data : Int)
  let pv1 : Int := if pv0 < 0 then 0 else pv0
  u16ofInt (pv1 * (2 ^ (16 - DAVIS_ADC_DEPTH) : Nat))

/-- The ADC sample write policy: a reset-phase sample (signal-phase for
DAVIS-RGB global shutter, where the reads are swapped) is staged into
`apsCurrentResetFrame` at the absolute index; the other phase stores the
CDS pixel into the frame event at the relative index. -/
def apsSampleWrite (s : DavisState) (data relPos absPos : Nat) : DavisState :=
  if (s.apsCurrentReadoutType = ReadoutType.reset ∧
        ¬(s.chipKind = ChipKind.davisRGB ∧ s.apsGlobalShutter = true)) ∨
      (s.apsCurrentReadoutType = ReadoutType.signal ∧
        (s.chipKind = ChipKind.davisRGB ∧ s.apsGlobalShutter = true)) then
    { s with apsCurrentResetFrame := upd s.apsCurrentResetFrame absPos data }
  else
    modifyFrameEvent s (fun ev =>
      { ev with
          pixels :=
            upd ev.pixels relPos
              (cdsPixelValue
                (decide (s.chipKind = ChipKind.davisRGB ∧ s.apsGlobalShutter = true))
                (s.apsCurrentResetFrame absPos) data) })

/-- The DAVIS-RGB striped-readout offset walk, applied once per sample. -/
def apsRGBOffsetWalk (s : DavisState) : DavisState :=
  if s.chipKind = ChipKind.davisRGB then
    if s.apsRGBPixelOffsetDirection = 0 then
      if s.apsRGBPixelOffset + 1 = 321 then
        { s with apsRGBPixelOffsetDirection := 1, apsRGBPixelOffset := 318 }
      else { s with apsRGBPixelOffset := s.apsRGBPixelOffset + 1 }
    else { s with apsRGBPixelOffset := s.apsRGBPixelOffset - 3 }
  else s

/-- `case 4`: APS ADC sample. -/
def decodeADC (s : DavisState) (data : Nat) : DavisState :=
  if s.apsIgnoreEvents then s
  else if (s.currentFramePacket.slots s.currentFramePacket.position).lengthY ≤
      s.apsCountY s.apsCurrentReadoutType then s
  else
    -- The row-count increment reads the pre-write count; the sample write
    -- never touches the counters.
    apsRGBOffsetWalk
      ((apsSampleWrite s data
          (apsPixelPosition s
            (s.currentFramePacket.slots s.currentFramePacket.position).lengthX
            (s.currentFramePacket.slots s.currentFramePacket.position).lengthY)
          (apsPixelPositionAbs s
            (s.currentFramePacket.slots s.currentFramePacket.position).lengthX
            (s.currentFramePacket.slots s.currentFramePacket.position).lengthY)).setApsCountY
        s.apsCurrentReadoutType (s.apsCountY s.apsCurrentReadoutType + 1))

/-- Recovery for a missed IMU Scale Config event: `case 0` of the
`imuCount` switch logs, sets `imuCount = 1`, and falls through to
`case 1`. -/
def imuRecoverCount (s : DavisState) : DavisState :=
  if s.imuCount = 0 then { s with imuCount := 1 } else s

/-- Store the low byte of the next `int16` IMU sample. -/
def imuStoreTmp (s : DavisState) (misc8Data : Nat) : DavisState :=
  { s with imuTmpData := misc8Data }

/-- Advance the IMU sample-byte counter (runs after the `imuCount`
switch). -/
def bumpImuCount (s : DavisState) : DavisState :=
  { s with imuCount := s.imuCount + 1 }

/-- The `imuCount` switch body for one accepted IMU record byte. -/
def imuSampleByte (s : DavisState) (misc8Data : Nat) : DavisState :=
  let s0 := imuRecoverCount s
  let v : Int := toInt16 ((s0.imuTmpData <<< 8) ||| misc8Data)
  bumpImuCount
    (if s0.imuCount = 1 ∨ s0.imuCount = 3 ∨ s0.imuCount = 5 ∨ s0.imuCount = 7 ∨
        s0.imuCount = 9 ∨ s0.imuCount = 11 ∨ s0.imuCount = 13 then
      imuStoreTmp s0 misc8Data
    else if s0.imuCount = 2 then modifyIMU6Event s0 (fun e => { e with accelX := v })
    else if s0.imuCount = 4 then modifyIMU6Event s0 (fun e => { e with accelY := v })
    else if s0.imuCount = 6 then modifyIMU6Event s0 (fun e => { e with accelZ := v })
    else if s0.imuCount = 8 then modifyIMU6Event s0 (fun e => { e with temp := v })
    else if s0.imuCount = 10 then modifyIMU6Event s0 (fun e => { e with gyroX := v })
    else if s0.imuCount = 12 then modifyIMU6Event s0 (fun e => { e with gyroY := v })
    else if s0.imuCount = 14 then modifyIMU6Event s0 (fun e => { e with gyroZ := v })
    else s0)

/-- `case 5`: misc 8-bit data; sub-code 0 carries one byte of the 14-byte
IMU record (the raw `int16` combinations are stored; the float scale
division is outside the model). -/
def decodeMisc8 (s : DavisState) (data : Nat) : DavisState :=
  if (data &&& 0x0F00) >>> 8 = 0 then
    if s.imuIgnoreEvents then s
    else if IMU6_COUNT ≤ s.imuCount then s
    else imuSampleByte s (data &&& 0x00FF)
  else s

/-- `case 7`: timestamp wrap. -/
def decodeWrap (s : DavisState) (data : Nat) : DavisState :=
  let wa := (s.wrapAdd + 0x8000 * data) % U32MOD
  { s with wrapAdd := wa, lastTimestamp := s.currentTimestamp, currentTimestamp := wa }

/-- A word with bit 15 set: expand the 15-bit tick to 32 bits over the
wrap base (the monotonicity check only logs). -/
def decodeTimestampWord (s : DavisState) (w : Nat) : DavisState :=
  { s with lastTimestamp := s.currentTimestamp,
           currentTimestamp := (s.wrapAdd + (w &&& 0x7FFF)) % U32MOD }

/-- One decoded 16-bit word: the timestamp-word branch and the code
dispatch of `davisEventTranslator`, without the packet-commit phase. -/
def decodeWord (s : DavisState) (w : Nat) : DavisState :=
  if w &&& 0x8000 ≠ 0 then decodeTimestampWord s w
  else if (w &&& 0x7000) >>> 12 = 0 then decodeSpecial s (w &&& 0x0FFF)
  else if (w &&& 0x7000) >>> 12 = 1 then decodeY s (w &&& 0x0FFF)
  else if (w &&& 0x7000) >>> 12 = 2 ∨ (w &&& 0x7000) >>> 12 = 3 then
    decodeX s ((w &&& 0x7000) >>> 12) (w &&& 0x0FFF)
  else if (w &&& 0x7000) >>> 12 = 4 then decodeADC s (w &&& 0x0FFF)
  else if (w &&& 0x7000) >>> 12 = 5 then decodeMisc8 s (w &&& 0x0FFF)
  else if (w &&& 0x7000) >>> 12 = 7 then decodeWrap s (w &&& 0x0FFF)
  else s

/-- Fold of the decode switch alone over a word stream (no commit phase);
used to state properties of the decoder's emissions. -/
def decodeRun (s : DavisState) (ws : List Nat) : DavisState :=
  List.foldl decodeWord s ws

/-- `forcePacketCommit` after decoding a word: the flag is raised only by
the TIMESTAMP_RESET special branch (top bit clear, code 0, data 1). -/
def forcePacketCommitOf (w : Nat) : Bool :=
  decide (w &&& 0x8000 = 0 ∧ (w &&& 0x7000) >>> 12 = 0 ∧ w &&& 0x0FFF = 1)

/-- The polarity commit trigger: force, capacity reached, or the time
span of the packet exceeds the interval budget (`int32` arithmetic). -/
def polarityCommitCond (s : DavisState) (force : Bool) : Prop :=
  force = true ∨
  s.currentPolarityPacket.capacity ≤ s.currentPolarityPacket.position ∨
  (1 < s.currentPolarityPacket.position ∧
    s.maxPolarityPacketInterval ≤
      toInt32 (s.currentPolarityPacket.slots (s.currentPolarityPacket.position - 1)).timestamp -
      toInt32 (s.currentPolarityPacket.slots 0).timestamp)

instance (s : DavisState) (force : Bool) : Decidable (polarityCommitCond s force) := by
  unfold polarityCommitCond; infer_instance

/-- The frame commit trigger (the interval uses `tsStartOfExposure`). -/
def frameCommitCond (s : DavisState) (force : Bool) : Prop :=
  force = true ∨
  s.currentFramePacket.capacity ≤ s.currentFramePacket.position ∨
  (1 < s.currentFramePacket.position ∧
    s.maxFramePacketInterval ≤
      toInt32 (s.currentFramePacket.slots (s.currentFramePacket.position - 1)).tsStartOfExposure -
      toInt32 (s.currentFramePacket.slots 0).tsStartOfExposure)

instance (s : DavisState) (force : Bool) : Decidable (frameCommitCond s force) := by
  unfold frameCommitCond; infer_instance

/-- The IMU6 commit trigger. -/
def imu6CommitCond (s : DavisState) (force : Bool) : Prop :=
  force = true ∨
  s.currentIMU6Packet.capacity ≤ s.currentIMU6Packet.position ∨
  (1 < s.currentIMU6Packet.position ∧
    s.maxIMU6PacketInterval ≤
      toInt32 (s.currentIMU6Packet.slots (s.currentIMU6Packet.position - 1)).timestamp -
      toInt32 (s.currentIMU6Packet.slots 0).timestamp)

instance (s : DavisState) (force : Bool) : Decidable (imu6CommitCond s force) := by
  unfold imu6CommitCond; infer_instance

/-- The special commit trigger. -/
def specialCommitCond (s : DavisState) (force : Bool) : Prop :=
  force = true ∨
  s.currentSpecialPacket.capacity ≤ s.currentSpecialPacket.position ∨
  (1 < s.currentSpecialPacket.position ∧
    s.maxSpecialPacketInterval ≤
      toInt32 (s.currentSpecialPacket.slots (s.currentSpecialPacket.position - 1)).timestamp -
      toInt32 (s.currentSpecialPacket.slots 0).timestamp)

instance (s : DavisState) (force : Bool) : Decidable (specialCommitCond s force) := by
  unfold specialCommitCond; infer_instance

/-- The polarity commit: forward the packet to the ring buffer (dropping
it when the buffer is full) and allocate a fresh packet with the position
reset. -/
def commitPolarity (force : Bool) (s : DavisState) : DavisState :=
  if polarityCommitCond s force then
    let s1 :=
      match ringBufferPut s.dataExchangeBuffer (CommittedPacket.polarity s.currentPolarityPacket) with
      | some b => { s with dataExchangeBuffer := b }
      | none => s
    { s1 with currentPolarityPacket := freshPacket s.maxPolarityPacketSize emptyPolarityEvent }
  else s

/-- The frame commit; whether the put succeeded or the packet was
dropped, `apsIgnoreEvents` is raised afterwards. -/
def commitFrame (force : Bool) (s : DavisState) : DavisState :=
  if frameCommitCond s force then
    let s1 :=
      match ringBufferPut s.dataExchangeBuffer (CommittedPacket.frame s.currentFramePacket) with
      | some b => { s with dataExchangeBuffer := b }
      | none => s
    { s1 with currentFramePacket := freshPacket s.maxFramePacketSize emptyFrameEvent,
              apsIgnoreEvents := true }
  else s

/-- The IMU6 commit; `imuIgnoreEvents` is raised afterwards in both
branches. -/
def commitIMU6 (force : Bool) (s : DavisState) : DavisState :=
  if imu6CommitCond s force then
    let s1 :=
      match ringBufferPut s.dataExchangeBuffer (CommittedPacket.imu6 s.currentIMU6Packet) with
      | some b => { s with dataExchangeBuffer := b }
      | none => s
    { s1 with currentIMU6Packet := freshPacket s.maxIMU6PacketSize emptyIMU6Event,
              imuIgnoreEvents := true }
  else s

/-- The special commit.  A full buffer without `forcePacketCommit` drops
the packet; with `forcePacketCommit` the code spins on `retry_special`
until a consumer drains the buffer — in this single-threaded model no
consumer runs, so that spin is divergence, modelled as `none`. -/
def commitSpecial (force : Bool) (s : DavisState) : Option DavisState :=
  if specialCommitCond s force then
    match ringBufferPut s.dataExchangeBuffer (CommittedPacket.special s.currentSpecialPacket) with
    | some b =>
        some { s with dataExchangeBuffer := b,
                      currentSpecialPacket := freshPacket s.maxSpecialPacketSize emptySpecialEvent }
    | none =>
        if force then none
        else some { s with currentSpecialPacket := freshPacket s.maxSpecialPacketSize emptySpecialEvent }
  else some s

/-- One full iteration of the translator loop: decode the word, then run
the four commit checks in source order (polarity, frame, IMU6, special). -/
def stepWord (s : DavisState) (w : Nat) : Option DavisState :=
  commitSpecial (forcePacketCommitOf w)
    (commitIMU6 (forcePacketCommitOf w)
      (commitFrame (forcePacketCommitOf w)
        (commitPolarity (forcePacketCommitOf w) (decodeWord s w))))

/-- `davisEventTranslator` over a stream of already-assembled 16-bit
words (`none` when the special-commit spin diverges). -/
def run (s : DavisState) : List Nat → Option DavisState
  | [] => some s
  | w :: ws =>
    match stepWord s w with
    | some s' => run s' ws
    | none => none

/-- Decoder state as it stands when streaming begins on a DAVIS240-like
device: the handle is calloc-zeroed, `davisOpen` stores the default
packet sizes and intervals, the device reports 240×180 DVS geometry with
no inversion or flips, and `davisCommonDataStart` allocates the exchange
buffer (capacity 64) and the four in-progress packets. -/
def initState240 : DavisState where
  chipKind := ChipKind.generic
  dvsSizeX := 240
  dvsSizeY := 180
  dvsInvertXY := false
  apsSizeX := 240
  apsSizeY := 180
  apsChannels := 1
  apsInvertXY := false
  apsFlipX := false
  apsFlipY := false
  apsWindow0StartX := 0
  apsWindow0StartY := 0
  apsWindow0SizeX := 240
  apsWindow0SizeY := 180
  maxPolarityPacketSize := 4096
  maxSpecialPacketSize := 128
  maxFramePacketSize := 4
  maxIMU6PacketSize := 8
  maxPolarityPacketInterval := 5000
  maxSpecialPacketInterval := 1000
  maxFramePacketInterval := 50000
  maxIMU6PacketInterval := 5000
  wrapAdd := 0
  lastTimestamp := 0
  currentTimestamp := 0
  dvsTimestamp := 0
  dvsGotY := false
  dvsLastY := 0
  apsCurrentReadoutType := ReadoutType.reset
  apsCountXReset := 0
  apsCountXSignal := 0
  apsCountYReset := 0
  apsCountYSignal := 0
  apsGlobalShutter := true
  apsResetRead := true
  apsIgnoreEvents := false
  apsRGBPixelOffset := 0
  apsRGBPixelOffsetDirection := 0
  apsCurrentResetFrame := fun _ => 0
  imuCount := 0
  imuTmpData := 0
  imuIgnoreEvents := false
  imuAccelScaleCfg := 0
  imuGyroScaleCfg := 0
  currentPolarityPacket := freshPacket 4096 emptyPolarityEvent
  currentSpecialPacket := freshPacket 128 emptySpecialEvent
  currentFramePacket := freshPacket 4 emptyFrameEvent
  currentIMU6Packet := freshPacket 8 emptyIMU6Event
  dataExchangeBuffer := ⟨64, []⟩
  emittedPolarity := 0
  emittedRowOnly := 0

/-! Projection lemmas: the packet/event helpers never touch the ghost
emission counters, and the counter-update helpers never touch them
either.  They let the per-word case analyses go through without manually
destructing the `ReadoutType` matches. -/

@[simp] theorem emitSpecial_emittedPolarity (s : DavisState) (f : SpecialEvent → SpecialEvent) :
    (emitSpecial s f).emittedPolarity = s.emittedPolarity := rfl

@[simp] theorem emitSpecial_emittedRowOnly (s : DavisState) (f : SpecialEvent → SpecialEvent) :
    (emitSpecial s f).emittedRowOnly = s.emittedRowOnly := rfl

@[simp] theorem emitPolarity_emittedPolarity (s : DavisState) (e : PolarityEvent) :
    (emitPolarity s e).emittedPolarity = s.emittedPolarity := rfl

@[simp] theorem emitPolarity_emittedRowOnly (s : DavisState) (e : PolarityEvent) :
    (emitPolarity s e).emittedRowOnly = s.emittedRowOnly := rfl

@[simp] theorem modifyFrameEvent_emittedPolarity (s : DavisState) (f : FrameEvent → FrameEvent) :
    (modifyFrameEvent s f).emittedPolarity = s.emittedPolarity := rfl

@[simp] theorem modifyFrameEvent_emittedRowOnly (s : DavisState) (f : FrameEvent → FrameEvent) :
    (modifyFrameEvent s f).emittedRowOnly = s.emittedRowOnly := rfl

@[simp] theorem modifyIMU6Event_emittedPolarity (s : DavisState) (f : IMU6Event → IMU6Event) :
    (modifyIMU6Event s f).emittedPolarity = s.emittedPolarity := rfl

@[simp] theorem modifyIMU6Event_emittedRowOnly (s : DavisState) (f : IMU6Event → IMU6Event) :
    (modifyIMU6Event s f).emittedRowOnly = s.emittedRowOnly := rfl

@[simp] theorem initFrame_emittedPolarity (s : DavisState) :
    (initFrame s).emittedPolarity = s.emittedPolarity := rfl

@[simp] theorem initFrame_emittedRowOnly (s : DavisState) :
    (initFrame s).emittedRowOnly = s.emittedRowOnly := rfl

@[simp] theorem setApsCountX_emittedPolarity (s : DavisState) (r : ReadoutType) (v : Nat) :
    (s.setApsCountX r v).emittedPolarity = s.emittedPolarity := by cases r <;> rfl

@[simp] theorem setApsCountX_emittedRowOnly (s : DavisState) (r : ReadoutType) (v : Nat) :
    (s.setApsCountX r v).emittedRowOnly = s.emittedRowOnly := by cases r <;> rfl

@[simp] theorem setApsCountY_emittedPolarity (s : DavisState) (r : ReadoutType) (v : Nat) :
    (s.setApsCountY r v).emittedPolarity = s.emittedPolarity := by cases r <;> rfl

@[simp] theorem setApsCountY_emittedRowOnly (s : DavisState) (r : ReadoutType) (v : Nat) :
    (s.setApsCountY r v).emittedRowOnly = s.emittedRowOnly := by cases r <;> rfl

@[simp] theorem specialTimestampReset_emittedPolarity (s : DavisState) :
    (specialTimestampReset s).emittedPolarity = s.emittedPolarity := rfl

@[simp] theorem specialTimestampReset_emittedRowOnly (s : DavisState) :
    (specialTimestampReset s).emittedRowOnly = s.emittedRowOnly := rfl

@[simp] theorem specialExtInput_emittedPolarity (s : DavisState) (k : SpecialKind) :
    (specialExtInput s k).emittedPolarity = s.emittedPolarity := rfl

@[simp] theorem specialExtInput_emittedRowOnly (s : DavisState) (k : SpecialKind) :
    (specialExtInput s k).emittedRowOnly = s.emittedRowOnly := rfl

@[simp] theorem specialIMU6Start_emittedPolarity (s : DavisState) :
    (specialIMU6Start s).emittedPolarity = s.emittedPolarity := rfl

@[simp] theorem specialIMU6Start_emittedRowOnly (s : DavisState) :
    (specialIMU6Start s).emittedRowOnly = s.emittedRowOnly := rfl

@[simp] theorem specialIMU6End_emittedPolarity (s : DavisState) :
    (specialIMU6End s).emittedPolarity = s.emittedPolarity := by
  simp only [specialIMU6End]; split_ifs <;> rfl

@[simp] theorem specialIMU6End_emittedRowOnly (s : DavisState) :
    (specialIMU6End s).emittedRowOnly = s.emittedRowOnly := by
  simp only [specialIMU6End]; split_ifs <;> rfl

@[simp] theorem specialAPSFrameStart_emittedPolarity (s : DavisState) (gs : Bool) :
    (specialAPSFrameStart s gs).emittedPolarity = s.emittedPolarity := rfl

@[simp] theorem specialAPSFrameStart_emittedRowOnly (s : DavisState) (gs : Bool) :
    (specialAPSFrameStart s gs).emittedRowOnly = s.emittedRowOnly := rfl

@[simp] theorem specialAPSFrameStartNoReset_emittedPolarity (s : DavisState) (gs : Bool) :
    (specialAPSFrameStartNoReset s gs).emittedPolarity = s.emittedPolarity := rfl

@[simp] theorem specialAPSFrameStartNoReset_emittedRowOnly (s : DavisState) (gs : Bool) :
    (specialAPSFrameStartNoReset s gs).emittedRowOnly = s.emittedRowOnly := rfl

@[simp] theorem specialAPSFrameEnd_emittedPolarity (s : DavisState) :
    (specialAPSFrameEnd s).emittedPolarity = s.emittedPolarity := by
  simp only [specialAPSFrameEnd]; split_ifs <;> rfl

@[simp] theorem specialAPSFrameEnd_emittedRowOnly (s : DavisState) :
    (specialAPSFrameEnd s).emittedRowOnly = s.emittedRowOnly := by
  simp only [specialAPSFrameEnd]; split_ifs <;> rfl

@[simp] theorem specialAPSResetColStart_emittedPolarity (s : DavisState) :
    (specialAPSResetColStart s).emittedPolarity = s.emittedPolarity := by
  simp only [specialAPSResetColStart]; split_ifs <;> rfl

@[simp] theorem specialAPSResetColStart_emittedRowOnly (s : DavisState) :
    (specialAPSResetColStart s).emittedRowOnly = s.emittedRowOnly := by
  simp only [specialAPSResetColStart]; split_ifs <;> rfl

@[simp] theorem specialAPSSignalColStart_emittedPolarity (s : DavisState) :
    (specialAPSSignalColStart s).emittedPolarity = s.emittedPolarity := by
  simp only [specialAPSSignalColStart]; split_ifs <;> rfl

@[simp] theorem specialAPSSignalColStart_emittedRowOnly (s : DavisState) :
    (specialAPSSignalColStart s).emittedRowOnly = s.emittedRowOnly := by
  simp only [specialAPSSignalColStart]; split_ifs <;> rfl

@[simp] theorem specialAPSColEnd_emittedPolarity (s : DavisState) :
    (specialAPSColEnd s).emittedPolarity = s.emittedPolarity := by
  simp only [specialAPSColEnd]; split_ifs <;> simp

@[simp] theorem specialAPSColEnd_emittedRowOnly (s : DavisState) :
    (specialAPSColEnd s).emittedRowOnly = s.emittedRowOnly := by
  simp only [specialAPSColEnd]; split_ifs <;> simp

@[simp] theorem specialIMUScaleConfig_emittedPolarity (s : DavisState) (d : Nat) :
    (specialIMUScaleConfig s d).emittedPolarity = s.emittedPolarity := by
  simp only [specialIMUScaleConfig]; split_ifs <;> rfl

@[simp] theorem specialIMUScaleConfig_emittedRowOnly (s : DavisState) (d : Nat) :
    (specialIMUScaleConfig s d).emittedRowOnly = s.emittedRowOnly := by
  simp only [specialIMUScaleConfig]; split_ifs <;> rfl

/-! Dispatch lemmas for the special-event switch, one per subtype, used
to drive case analyses over an arbitrary data field. -/

@[simp] theorem decodeSpecial_d0 (s : DavisState) : decodeSpecial s 0 = s := rfl

@[simp] theorem decodeSpecial_d1 (s : DavisState) :
    decodeSpecial s 1 = specialTimestampReset s := rfl

@[simp] theorem decodeSpecial_d2 (s : DavisState) :
    decodeSpecial s 2 = specialExtInput s SpecialKind.extInputFalling := rfl

@[simp] theorem decodeSpecial_d3 (s : DavisState) :
    decodeSpecial s 3 = specialExtInput s SpecialKind.extInputRising := rfl

@[simp] theorem decodeSpecial_d4 (s : DavisState) :
    decodeSpecial s 4 = specialExtInput s SpecialKind.extInputPulse := rfl

@[simp] theorem decodeSpecial_d5 (s : DavisState) :
    decodeSpecial s 5 = specialIMU6Start s := rfl

@[simp] theorem decodeSpecial_d6 (s : DavisState) : decodeSpecial s 6 = s := rfl

@[simp] theorem decodeSpecial_d7 (s : DavisState) :
    decodeSpecial s 7 = specialIMU6End s := rfl

@[simp] theorem decodeSpecial_d8 (s : DavisState) :
    decodeSpecial s 8 = specialAPSFrameStart s true := rfl

@[simp] theorem decodeSpecial_d9 (s : DavisState) :
    decodeSpecial s 9 = specialAPSFrameStart s false := rfl

@[simp] theorem decodeSpecial_d10 (s : DavisState) :
    decodeSpecial s 10 = specialAPSFrameEnd s := rfl

@[simp] theorem decodeSpecial_d11 (s : DavisState) :
    decodeSpecial s 11 = specialAPSResetColStart s := rfl

@[simp] theorem decodeSpecial_d12 (s : DavisState) :
    decodeSpecial s 12 = specialAPSSignalColStart s := rfl

@[simp] theorem decodeSpecial_d13 (s : DavisState) :
    decodeSpecial s 13 = specialAPSColEnd s := rfl

@[simp] theorem decodeSpecial_d14 (s : DavisState) :
    decodeSpecial s 14 = specialAPSFrameStartNoReset s true := rfl

@[simp] theorem decodeSpecial_d15 (s : DavisState) :
    decodeSpecial s 15 = specialAPSFrameStartNoReset s false := rfl

theorem decodeSpecial_scale (s : DavisState) (d : Nat) (h1 : 16 ≤ d) (h2 : d ≤ 31) :
    decodeSpecial s d = specialIMUScaleConfig s d := by
  delta decodeSpecial
  repeat rw [if_neg (by omega)]
  rw [if_pos ⟨h1, h2⟩]

theorem decodeSpecial_ge32 (s : DavisState) (d : Nat) (h : 32 ≤ d) :
    decodeSpecial s d = s := by
  delta decodeSpecial
  repeat rw [if_neg (by omega)]

theorem decodeSpecial_emittedPolarity (s : DavisState) (d : Nat) :
    (decodeSpecial s d).emittedPolarity = s.emittedPolarity := by
  rcases Nat.lt_or_ge d 32 with h32 | h32
  · rcases Nat.lt_or_ge d 16 with h16 | h16
    · interval_cases d <;> simp
    · rw [decodeSpecial_scale s d h16 (by omega)]; simp
  · rw [decodeSpecial_ge32 s d h32]

theorem decodeSpecial_emittedRowOnly (s : DavisState) (d : Nat) :
    (decodeSpecial s d).emittedRowOnly = s.emittedRowOnly := by
  rcases Nat.lt_or_ge d 32 with h32 | h32
  · rcases Nat.lt_or_ge d 16 with h16 | h16
    · interval_cases d <;> simp
    · rw [decodeSpecial_scale s d h16 (by omega)]; simp
  · rw [decodeSpecial_ge32 s d h32]

@[simp] theorem emitRowOnly_emittedPolarity (s : DavisState) :
    (emitRowOnly s).emittedPolarity = s.emittedPolarity := rfl

@[simp] theorem emitRowOnly_emittedRowOnly (s : DavisState) :
    (emitRowOnly s).emittedRowOnly = s.emittedRowOnly + 1 := rfl

@[simp] theorem latchY_emittedPolarity (s : DavisState) (d : Nat) :
    (latchY s d).emittedPolarity = s.emittedPolarity := rfl

@[simp] theorem latchY_emittedRowOnly (s : DavisState) (d : Nat) :
    (latchY s d).emittedRowOnly = s.emittedRowOnly := rfl

@[simp] theorem emitXEvent_emittedPolarity (s : DavisState) (c d : Nat) :
    (emitXEvent s c d).emittedPolarity = s.emittedPolarity + 1 := rfl

@[simp] theorem emitXEvent_emittedRowOnly (s : DavisState) (c d : Nat) :
    (emitXEvent s c d).emittedRowOnly = s.emittedRowOnly := rfl

theorem decodeY_emittedPolarity (s : DavisState) (d : Nat) :
    (decodeY s d).emittedPolarity = s.emittedPolarity := by
  simp only [decodeY]; split_ifs <;> simp

theorem decodeY_emittedRowOnly (s : DavisState) (d : Nat) :
    (decodeY s d).emittedRowOnly =
      s.emittedRowOnly + (if d < s.dvsSizeY ∧ s.dvsGotY = true then 1 else 0) := by
  simp only [decodeY]
  split_ifs with h h2 <;> simp_all <;> omega

theorem decodeX_emittedPolarity (s : DavisState) (c d : Nat) :
    (decodeX s c d).emittedPolarity =
      s.emittedPolarity + (if d < s.dvsSizeX then 1 else 0) := by
  simp only [decodeX]
  split_ifs with h <;> simp <;> omega

theorem decodeX_emittedRowOnly (s : DavisState) (c d : Nat) :
    (decodeX s c d).emittedRowOnly = s.emittedRowOnly := by
  simp only [decodeX]; split_ifs <;> simp

@[simp] theorem apsSampleWrite_emittedPolarity (s : DavisState) (data relPos absPos : Nat) :
    (apsSampleWrite s data relPos absPos).emittedPolarity = s.emittedPolarity := by
  simp only [apsSampleWrite]; split_ifs <;> simp

@[simp] theorem apsSampleWrite_emittedRowOnly (s : DavisState) (data relPos absPos : Nat) :
    (apsSampleWrite s data relPos absPos).emittedRowOnly = s.emittedRowOnly := by
  simp only [apsSampleWrite]; split_ifs <;> simp

@[simp] theorem apsRGBOffsetWalk_emittedPolarity (s : DavisState) :
    (apsRGBOffsetWalk s).emittedPolarity = s.emittedPolarity := by
  simp only [apsRGBOffsetWalk]; split_ifs <;> rfl

@[simp] theorem apsRGBOffsetWalk_emittedRowOnly (s : DavisState) :
    (apsRGBOffsetWalk s).emittedRowOnly = s.emittedRowOnly := by
  simp only [apsRGBOffsetWalk]; split_ifs <;> rfl

theorem decodeADC_emittedPolarity (s : DavisState) (d : Nat) :
    (decodeADC s d).emittedPolarity = s.emittedPolarity := by
  simp only [decodeADC]; split_ifs <;> simp

theorem decodeADC_emittedRowOnly (s : DavisState) (d : Nat) :
    (decodeADC s d).emittedRowOnly = s.emittedRowOnly := by
  simp only [decodeADC]; split_ifs <;> simp

@[simp] theorem imuRecoverCount_emittedPolarity (s : DavisState) :
    (imuRecoverCount s).emittedPolarity = s.emittedPolarity := by
  simp only [imuRecoverCount]; split_ifs <;> rfl

@[simp] theorem imuRecoverCount_emittedRowOnly (s : DavisState) :
    (imuRecoverCount s).emittedRowOnly = s.emittedRowOnly := by
  simp only [imuRecoverCount]; split_ifs <;> rfl

@[simp] theorem imuStoreTmp_emittedPolarity (s : DavisState) (d : Nat) :
    (imuStoreTmp s d).emittedPolarity = s.emittedPolarity := rfl

@[simp] theorem imuStoreTmp_emittedRowOnly (s : DavisState) (d : Nat) :
    (imuStoreTmp s d).emittedRowOnly = s.emittedRowOnly := rfl

@[simp] theorem bumpImuCount_emittedPolarity (s : DavisState) :
    (bumpImuCount s).emittedPolarity = s.emittedPolarity := rfl

@[simp] theorem bumpImuCount_emittedRowOnly (s : DavisState) :
    (bumpImuCount s).emittedRowOnly = s.emittedRowOnly := rfl

@[simp] theorem imuSampleByte_emittedPolarity (s : DavisState) (d : Nat) :
    (imuSampleByte s d).emittedPolarity = s.emittedPolarity := by
  simp only [imuSampleByte]; split_ifs <;> simp

@[simp] theorem imuSampleByte_emittedRowOnly (s : DavisState) (d : Nat) :
    (imuSampleByte s d).emittedRowOnly = s.emittedRowOnly := by
  simp only [imuSampleByte]; split_ifs <;> simp

theorem decodeMisc8_emittedPolarity (s : DavisState) (d : Nat) :
    (decodeMisc8 s d).emittedPolarity = s.emittedPolarity := by
  simp only [decodeMisc8]; split_ifs <;> simp

theorem decodeMisc8_emittedRowOnly (s : DavisState) (d : Nat) :
    (decodeMisc8 s d).emittedRowOnly = s.emittedRowOnly := by
  simp only [decodeMisc8]; split_ifs <;> simp

@[simp] theorem decodeWrap_emittedPolarity (s : DavisState) (d : Nat) :
    (decodeWrap s d).emittedPolarity = s.emittedPolarity := rfl

@[simp] theorem decodeWrap_emittedRowOnly (s : DavisState) (d : Nat) :
    (decodeWrap s d).emittedRowOnly = s.emittedRowOnly := rfl

end LibcaerDavis

namespace LibcaerDavis

/-- C1: a 16-bit word with bit 15 set makes the decoder save the previous
`currentTimestamp` into `lastTimestamp` and set
`currentTimestamp = wrapAdd + (word & 0x7FFF)` (`uint32` arithmetic); a
wrap word (code 7, data d) adds `0x8000·d` to `wrapAdd` and republishes
`currentTimestamp = wrapAdd`; and from fresh decoder state the word
sequence `0x8000, 0x7001, 0x8005` leaves `currentTimestamp = 0x8005`. -/
theorem claim_C1_timestamp_reconstruction :
    (∀ (s : DavisState) (w : Nat), w &&& 0x8000 ≠ 0 →
      (decodeWord s w).lastTimestamp = s.currentTimestamp ∧
      (decodeWord s w).currentTimestamp = (s.wrapAdd + (w &&& 0x7FFF)) % U32MOD) ∧
    (∀ (s : DavisState) (w : Nat), w &&& 0x8000 = 0 → (w &&& 0x7000) >>> 12 = 7 →
      (decodeWord s w).wrapAdd = (s.wrapAdd + 0x8000 * (w &&& 0x0FFF)) % U32MOD ∧
      (decodeWord s w).currentTimestamp = (decodeWord s w).wrapAdd ∧
      (decodeWord s w).lastTimestamp = s.currentTimestamp) ∧
    (run initState240 [0x8000, 0x7001, 0x8005]).map (fun s => s.currentTimestamp) =
      some 0x8005 := by
  refine ⟨?_, ?_, by decide⟩
  · intro s w h
    delta decodeWord
    rw [if_pos h]
    exact ⟨rfl, rfl⟩
  · intro s w h0 h7
    have h0' : ¬ w &&& 0x8000 ≠ 0 := by simpa using h0
    delta decodeWord
    rw [if_neg h0']
    simp only [h7]
    norm_num [decodeWrap]

/-- C1 witness: the general parts of the claim instantiated at the fresh
state with the concrete timestamp word `0x8010` and wrap word `0x7002`. -/
theorem claim_C1_witness :
    ((decodeWord initState240 0x8010).lastTimestamp = initState240.currentTimestamp ∧
      (decodeWord initState240 0x8010).currentTimestamp =
        (initState240.wrapAdd + (0x8010 &&& 0x7FFF)) % U32MOD) ∧
    ((decodeWord initState240 0x7002).wrapAdd =
        (initState240.wrapAdd + 0x8000 * (0x7002 &&& 0x0FFF)) % U32MOD ∧
      (decodeWord initState240 0x7002).currentTimestamp =
        (decodeWord initState240 0x7002).wrapAdd ∧
      (decodeWord initState240 0x7002).lastTimestamp = initState240.currentTimestamp) :=
  ⟨claim_C1_timestamp_reconstruction.1 initState240 0x8010 (by decide),
    claim_C1_timestamp_reconstruction.2.1 initState240 0x7002 (by decide) (by decide)⟩

/-- C4 counterexample: from fresh DAVIS240 decoder state, the word
sequence `0x0005, 0x8010, 0x2003` does NOT produce a polarity event
(x=3, y=5, OFF, ts=0x10): `0x0005` is a Special word (code 0, subtype 5 =
IMU6 Start), not a Y address, so the polarity event emitted for `0x2003`
carries the never-latched `dvsLastY = 0` at the stale `dvsTimestamp = 0`. -/
theorem claim_C4_counterexample :
    ¬ ((run initState240 [0x0005, 0x8010, 0x2003]).map
        (fun s => (s.emittedPolarity, s.currentPolarityPacket.slots 0)) =
      some (1, ⟨0x10, 3, 5, false, true⟩)) ∧
    (run initState240 [0x0005, 0x8010, 0x2003]).map
        (fun s => (s.emittedPolarity, s.currentPolarityPacket.slots 0)) =
      some (1, ⟨0, 3, 0, false, true⟩) := by
  constructor
  · decide
  · decide

/-- C4 amended: a Y address is a code-1 word (`0x1005`, not `0x0005`), and
the polarity timestamp is the one snapshotted when the Y word arrives, so
the timestamp word must precede it: from fresh DAVIS240 decoder state,
the sequence `0x8010` (ts 0x10), `0x1005` (Y=5), `0x2003` (X=3, OFF)
emits exactly one polarity event (x=3, y=5, OFF, ts=0x10) and no
DVS_ROW_ONLY event. -/
theorem claim_C4_polarity_scenario :
    (run initState240 [0x8010, 0x1005, 0x2003]).map
        (fun s => (s.emittedPolarity, s.emittedRowOnly, s.currentPolarityPacket.slots 0)) =
      some (1, 0, ⟨0x10, 3, 5, false, true⟩) := by decide

end LibcaerDavis

namespace LibcaerDavis

/-- The 3-bit code field of an event word never exceeds 7. -/
theorem code_le_seven (w : Nat) : (w &&& 0x7000) >>> 12 ≤ 7 := by
  have h1 : w &&& 0x7000 ≤ 0x7000 := Nat.and_le_right
  have h2 : (w &&& 0x7000) >>> 12 ≤ (0x7000 : Nat) >>> 12 := by
    simp only [Nat.shiftRight_eq_div_pow]
    exact Nat.div_le_div_right h1
  have h3 : (0x7000 : Nat) >>> 12 = 7 := by decide
  rw [h3] at h2
  exact h2

/-- Modelled from the spec (refinement comparison definition, invariant 4
and testable property 3): the number of polarity events the spec
predicts is the number of (Y, X) pairs — an in-range Y word latches, an
in-range X word forms a pair only when the latch is set and clears it. -/
def specPairedYXCount (sizeX sizeY : Nat) : Bool → List Nat → Nat
  | _, [] => 0
  | latch, w :: ws =>
    if w &&& 0x8000 ≠ 0 then specPairedYXCount sizeX sizeY latch ws
    else if (w &&& 0x7000) >>> 12 = 1 ∧ w &&& 0x0FFF < sizeY then
      specPairedYXCount sizeX sizeY true ws
    else if ((w &&& 0x7000) >>> 12 = 2 ∨ (w &&& 0x7000) >>> 12 = 3) ∧
        w &&& 0x0FFF < sizeX then
      (if latch then 1 else 0) + specPairedYXCount sizeX sizeY false ws
    else specPairedYXCount sizeX sizeY latch ws

/-- C3 counterexample: polarity events are NOT emitted only in Y-then-X
pairs.  On the single-word stream `[0x2003]` (an in-range X with no Y
ever seen) the decoder emits one polarity event, while the spec's
pairing count is zero: the X branch never checks the Y latch. -/
theorem claim_C3_counterexample :
    ¬ (∀ ws : List Nat,
        (decodeRun initState240 ws).emittedPolarity =
          specPairedYXCount 240 180 false ws) := by
  intro h
  exact absurd (h [0x2003]) (by decide)

end LibcaerDavis

namespace LibcaerDavis

/-- C3 amended: every in-range X word (code 2/3, data < dvsSizeX) emits
exactly one polarity event — using the latched `dvsLastY` even when no Y
preceded — and no other word emits one; a second in-range Y while the
Y-latch is set emits exactly one DVS_ROW_ONLY special event carrying the
previous Y at the snapshotted `dvsTimestamp` (and no other word emits
one); an out-of-range Y (data ≥ dvsSizeY) leaves the decoder state
unchanged. -/
theorem claim_C3_dvs_pairing_amended :
    (∀ (s : DavisState) (w : Nat),
      (decodeWord s w).emittedPolarity = s.emittedPolarity +
        (if w &&& 0x8000 = 0 ∧ ((w &&& 0x7000) >>> 12 = 2 ∨ (w &&& 0x7000) >>> 12 = 3) ∧
            w &&& 0x0FFF < s.dvsSizeX then 1 else 0)) ∧
    (∀ (s : DavisState) (w : Nat),
      (decodeWord s w).emittedRowOnly = s.emittedRowOnly +
        (if w &&& 0x8000 = 0 ∧ (w &&& 0x7000) >>> 12 = 1 ∧
            w &&& 0x0FFF < s.dvsSizeY ∧ s.dvsGotY = true then 1 else 0)) ∧
    (∀ (s : DavisState) (w : Nat), w &&& 0x8000 = 0 → (w &&& 0x7000) >>> 12 = 1 →
      w &&& 0x0FFF < s.dvsSizeY → s.dvsGotY = true →
      (decodeWord s w).currentSpecialPacket.position = s.currentSpecialPacket.position + 1 ∧
      (decodeWord s w).currentSpecialPacket.slots s.currentSpecialPacket.position =
        ⟨s.dvsTimestamp, SpecialKind.dvsRowOnly, s.dvsLastY, true⟩ ∧
      (decodeWord s w).dvsGotY = true ∧ (decodeWord s w).dvsLastY = w &&& 0x0FFF ∧
      (decodeWord s w).dvsTimestamp = s.currentTimestamp) ∧
    (∀ (s : DavisState) (w : Nat), w &&& 0x8000 = 0 → (w &&& 0x7000) >>> 12 = 1 →
      s.dvsSizeY ≤ w &&& 0x0FFF → decodeWord s w = s) := by
  refine ⟨?_, ?_, ?_, ?_⟩
  · intro s w
    by_cases h : w &&& 0x8000 ≠ 0
    · delta decodeWord
      rw [if_pos h]
      simp [decodeTimestampWord, h]
    · push_neg at h
      delta decodeWord
      rw [if_neg (not_not_intro h)]
      obtain ⟨c, hc⟩ : ∃ c, c = (w &&& 0x7000) >>> 12 := ⟨_, rfl⟩
      rw [← hc]
      have hc7 : c ≤ 7 := hc ▸ code_le_seven w
      interval_cases c <;>
        simp [decodeSpecial_emittedPolarity, decodeY_emittedPolarity,
          decodeX_emittedPolarity, decodeADC_emittedPolarity,
          decodeMisc8_emittedPolarity, h]
  · intro s w
    by_cases h : w &&& 0x8000 ≠ 0
    · delta decodeWord
      rw [if_pos h]
      simp [decodeTimestampWord, h]
    · push_neg at h
      delta decodeWord
      rw [if_neg (not_not_intro h)]
      obtain ⟨c, hc⟩ : ∃ c, c = (w &&& 0x7000) >>> 12 := ⟨_, rfl⟩
      rw [← hc]
      have hc7 : c ≤ 7 := hc ▸ code_le_seven w
      interval_cases c <;>
        simp [decodeSpecial_emittedRowOnly, decodeY_emittedRowOnly,
          decodeX_emittedRowOnly, decodeADC_emittedRowOnly,
          decodeMisc8_emittedRowOnly, h]
  · intro s w h0 h1 hlt hgot
    delta decodeWord
    rw [if_neg (not_not_intro h0), if_neg (by rw [h1]; decide), if_pos h1]
    delta decodeY
    rw [if_neg (not_le.mpr hlt), if_pos hgot]
    refine ⟨rfl, ?_, rfl, rfl, rfl⟩
    simp [latchY, emitRowOnly, emitSpecial, upd]
  · intro s w h0 h1 hge
    delta decodeWord
    rw [if_neg (not_not_intro h0), if_neg (by rw [h1]; decide), if_pos h1]
    delta decodeY
    rw [if_pos hge]

end LibcaerDavis

namespace LibcaerDavis

/-- A decoder state with the Y latch set: `initState240` after latching
Y = 9 at timestamp 77. -/
def c3WitnessState : DavisState :=
  { initState240 with dvsGotY := true, dvsLastY := 9, dvsTimestamp := 77 }

/-- C3 witness: the orphan-Y part of the amended claim at the concrete
latched state and the in-range Y word `0x1005`. -/
theorem claim_C3_witness :
    (decodeWord c3WitnessState 0x1005).currentSpecialPacket.position =
        c3WitnessState.currentSpecialPacket.position + 1 ∧
    (decodeWord c3WitnessState 0x1005).currentSpecialPacket.slots
        c3WitnessState.currentSpecialPacket.position =
      ⟨c3WitnessState.dvsTimestamp, SpecialKind.dvsRowOnly, c3WitnessState.dvsLastY, true⟩ ∧
    (decodeWord c3WitnessState 0x1005).dvsGotY = true ∧
    (decodeWord c3WitnessState 0x1005).dvsLastY = 0x1005 &&& 0x0FFF ∧
    (decodeWord c3WitnessState 0x1005).dvsTimestamp = c3WitnessState.currentTimestamp :=
  claim_C3_dvs_pairing_amended.2.2.1 c3WitnessState 0x1005 (by decide) (by decide)
    (by decide) rfl

/-- Evaluation of the polarity commit when it fires with ring-buffer
room. -/
theorem commitPolarity_force_room (s : DavisState)
    (h : s.dataExchangeBuffer.items.length < s.dataExchangeBuffer.capacity) :
    commitPolarity true s =
      { s with
          dataExchangeBuffer :=
            { s.dataExchangeBuffer with
                items := s.dataExchangeBuffer.items ++
                  [CommittedPacket.polarity s.currentPolarityPacket] },
          currentPolarityPacket := freshPacket s.maxPolarityPacketSize emptyPolarityEvent } := by
  unfold commitPolarity
  rw [if_pos (show polarityCommitCond s true from Or.inl rfl)]
  unfold ringBufferPut
  rw [if_pos h]

/-- Evaluation of the frame commit when it fires with ring-buffer room:
the packet is forwarded and `apsIgnoreEvents` raised. -/
theorem commitFrame_force_room (s : DavisState)
    (h : s.dataExchangeBuffer.items.length < s.dataExchangeBuffer.capacity) :
    commitFrame true s =
      { s with
          dataExchangeBuffer :=
            { s.dataExchangeBuffer with
                items := s.dataExchangeBuffer.items ++
                  [CommittedPacket.frame s.currentFramePacket] },
          currentFramePacket := freshPacket s.maxFramePacketSize emptyFrameEvent,
          apsIgnoreEvents := true } := by
  unfold commitFrame
  rw [if_pos (show frameCommitCond s true from Or.inl rfl)]
  unfold ringBufferPut
  rw [if_pos h]

/-- Evaluation of the IMU6 commit when it fires with ring-buffer room:
the packet is forwarded and `imuIgnoreEvents` raised. -/
theorem commitIMU6_force_room (s : DavisState)
    (h : s.dataExchangeBuffer.items.length < s.dataExchangeBuffer.capacity) :
    commitIMU6 true s =
      { s with
          dataExchangeBuffer :=
            { s.dataExchangeBuffer with
                items := s.dataExchangeBuffer.items ++
                  [CommittedPacket.imu6 s.currentIMU6Packet] },
          currentIMU6Packet := freshPacket s.maxIMU6PacketSize emptyIMU6Event,
          imuIgnoreEvents := true } := by
  unfold commitIMU6
  rw [if_pos (show imu6CommitCond s true from Or.inl rfl)]
  unfold ringBufferPut
  rw [if_pos h]

/-- Evaluation of the special commit when it fires with ring-buffer
room. -/
theorem commitSpecial_force_room (s : DavisState) (force : Bool)
    (h : s.dataExchangeBuffer.items.length < s.dataExchangeBuffer.capacity) :
    commitSpecial force s =
      if specialCommitCond s force then
        some { s with
            dataExchangeBuffer :=
              { s.dataExchangeBuffer with
                  items := s.dataExchangeBuffer.items ++
                    [CommittedPacket.special s.currentSpecialPacket] },
            currentSpecialPacket := freshPacket s.maxSpecialPacketSize emptySpecialEvent }
      else some s := by
  unfold commitSpecial
  by_cases hcond : specialCommitCond s force
  · rw [if_pos hcond, if_pos hcond]
    unfold ringBufferPut
    rw [if_pos h]
  · rw [if_neg hcond, if_neg hcond]

end LibcaerDavis

namespace LibcaerDavis

/-! Projection lemmas: the timestamp-reset decode touches neither the
exchange buffer nor the configured packet capacities. -/

@[simp] theorem specialTimestampReset_dataExchangeBuffer (s : DavisState) :
    (specialTimestampReset s).dataExchangeBuffer = s.dataExchangeBuffer := rfl

@[simp] theorem specialTimestampReset_maxPolarityPacketSize (s : DavisState) :
    (specialTimestampReset s).maxPolarityPacketSize = s.maxPolarityPacketSize := rfl

@[simp] theorem specialTimestampReset_maxSpecialPacketSize (s : DavisState) :
    (specialTimestampReset s).maxSpecialPacketSize = s.maxSpecialPacketSize := rfl

@[simp] theorem specialTimestampReset_maxFramePacketSize (s : DavisState) :
    (specialTimestampReset s).maxFramePacketSize = s.maxFramePacketSize := rfl

@[simp] theorem specialTimestampReset_maxIMU6PacketSize (s : DavisState) :
    (specialTimestampReset s).maxIMU6PacketSize = s.maxIMU6PacketSize := rfl

/-- Full evaluation of one translator iteration on the TIMESTAMP_RESET
word `0x0001` when the exchange buffer has room for all four packets. -/
theorem stepWord_timestampReset (s : DavisState)
    (hroom : s.dataExchangeBuffer.items.length + 4 ≤ s.dataExchangeBuffer.capacity) :
    stepWord s 0x0001 = some
      { specialTimestampReset s with
          dataExchangeBuffer :=
            { s.dataExchangeBuffer with
                items := s.dataExchangeBuffer.items ++
                  [CommittedPacket.polarity s.currentPolarityPacket,
                   CommittedPacket.frame s.currentFramePacket,
                   CommittedPacket.imu6 s.currentIMU6Packet,
                   CommittedPacket.special (specialTimestampReset s).currentSpecialPacket] },
          currentPolarityPacket := freshPacket s.maxPolarityPacketSize emptyPolarityEvent,
          currentFramePacket := freshPacket s.maxFramePacketSize emptyFrameEvent,
          currentIMU6Packet := freshPacket s.maxIMU6PacketSize emptyIMU6Event,
          currentSpecialPacket := freshPacket s.maxSpecialPacketSize emptySpecialEvent,
          apsIgnoreEvents := true, imuIgnoreEvents := true } := by
  have hd : decodeWord s 0x0001 = specialTimestampReset s := rfl
  have hf : forcePacketCommitOf 0x0001 = true := rfl
  unfold stepWord
  rw [hf, hd]
  rw [commitPolarity_force_room]
  rw [commitFrame_force_room]
  rw [commitIMU6_force_room]
  rw [commitSpecial_force_room]
  rw [if_pos (show specialCommitCond _ true from Or.inl rfl)]
  · simp [List.append_assoc]
    exact ⟨rfl, rfl, rfl⟩
  all_goals simp
  all_goals omega

end LibcaerDavis

namespace LibcaerDavis

/-- C2: decoding the Special word with subtype 1 (`0x0001`,
TIMESTAMP_RESET) zeroes `wrapAdd`, `lastTimestamp`, `currentTimestamp`
and `dvsTimestamp`, appends a validated TIMESTAMP_RESET special event
with timestamp UINT32_MAX at the in-progress special position (advancing
it), and raises the force-commit flag, so that all four per-modality
commit checks fire on the same iteration: all four in-progress packets
are forwarded to the exchange buffer and replaced by fresh packets with
position 0 (the buffer is assumed to have room, otherwise frames would
drop and the special commit would spin). -/
theorem claim_C2_timestamp_reset (s : DavisState)
    (hroom : s.dataExchangeBuffer.items.length + 4 ≤ s.dataExchangeBuffer.capacity) :
    ∃ s', stepWord s 0x0001 = some s' ∧
      s'.wrapAdd = 0 ∧ s'.lastTimestamp = 0 ∧ s'.currentTimestamp = 0 ∧
      s'.dvsTimestamp = 0 ∧
      s'.dataExchangeBuffer.items =
        s.dataExchangeBuffer.items ++
          [CommittedPacket.polarity s.currentPolarityPacket,
           CommittedPacket.frame s.currentFramePacket,
           CommittedPacket.imu6 s.currentIMU6Packet,
           CommittedPacket.special (specialTimestampReset s).currentSpecialPacket] ∧
      (specialTimestampReset s).currentSpecialPacket.position =
        s.currentSpecialPacket.position + 1 ∧
      ((specialTimestampReset s).currentSpecialPacket.slots
          s.currentSpecialPacket.position).timestamp = 4294967295 ∧
      ((specialTimestampReset s).currentSpecialPacket.slots
          s.currentSpecialPacket.position).kind = SpecialKind.timestampReset ∧
      ((specialTimestampReset s).currentSpecialPacket.slots
          s.currentSpecialPacket.position).valid = true ∧
      s'.currentPolarityPacket.position = 0 ∧ s'.currentSpecialPacket.position = 0 ∧
      s'.currentFramePacket.position = 0 ∧ s'.currentIMU6Packet.position = 0 := by
  refine ⟨_, stepWord_timestampReset s hroom, rfl, rfl, rfl, rfl, rfl, rfl,
    ?_, ?_, ?_, rfl, rfl, rfl, rfl⟩
  all_goals simp [specialTimestampReset, emitSpecial, upd]

/-- C2 witness: the claim instantiated at the fresh DAVIS240 state, whose
empty 64-slot exchange buffer has room for all four packets. -/
theorem claim_C2_witness :
    ∃ s', stepWord initState240 0x0001 = some s' ∧
      s'.wrapAdd = 0 ∧ s'.lastTimestamp = 0 ∧ s'.currentTimestamp = 0 ∧
      s'.dvsTimestamp = 0 ∧
      s'.dataExchangeBuffer.items =
        initState240.dataExchangeBuffer.items ++
          [CommittedPacket.polarity initState240.currentPolarityPacket,
           CommittedPacket.frame initState240.currentFramePacket,
           CommittedPacket.imu6 initState240.currentIMU6Packet,
           CommittedPacket.special (specialTimestampReset initState240).currentSpecialPacket] ∧
      (specialTimestampReset initState240).currentSpecialPacket.position =
        initState240.currentSpecialPacket.position + 1 ∧
      ((specialTimestampReset initState240).currentSpecialPacket.slots
          initState240.currentSpecialPacket.position).timestamp = 4294967295 ∧
      ((specialTimestampReset initState240).currentSpecialPacket.slots
          initState240.currentSpecialPacket.position).kind = SpecialKind.timestampReset ∧
      ((specialTimestampReset initState240).currentSpecialPacket.slots
          initState240.currentSpecialPacket.position).valid = true ∧
      s'.currentPolarityPacket.position = 0 ∧ s'.currentSpecialPacket.position = 0 ∧
      s'.currentFramePacket.position = 0 ∧ s'.currentIMU6Packet.position = 0 :=
  claim_C2_timestamp_reset initState240 (by decide)

end LibcaerDavis

namespace LibcaerDavis

/-- C5: decoding the APS Frame End word `0x000A` with `apsIgnoreEvents`
clear (and the in-progress frame slot not yet validated, as a freshly
allocated slot is) stamps `tsEndOfFrame` with the current timestamp,
advances the frame packet position regardless of validity, and marks the
event valid iff each readout phase's column count equals the frame width
— except that with reset reads disabled the reset-phase count is checked
against 0. -/
theorem claim_C5_frame_end_validity (s : DavisState)
    (hig : s.apsIgnoreEvents = false)
    (hv : (s.currentFramePacket.slots s.currentFramePacket.position).valid = false) :
    (decodeWord s 0x000A).currentFramePacket.position = s.currentFramePacket.position + 1 ∧
    ((decodeWord s 0x000A).currentFramePacket.slots
        s.currentFramePacket.position).tsEndOfFrame = s.currentTimestamp ∧
    (((decodeWord s 0x000A).currentFramePacket.slots
        s.currentFramePacket.position).valid = true ↔
      (s.apsCountXReset =
          (if s.apsResetRead = true then
            (s.currentFramePacket.slots s.currentFramePacket.position).lengthX
          else 0) ∧
        s.apsCountXSignal =
          (s.currentFramePacket.slots s.currentFramePacket.position).lengthX)) := by
  have hd : decodeWord s 0x000A = specialAPSFrameEnd s := rfl
  rw [hd]
  unfold specialAPSFrameEnd
  rw [if_neg (by simp [hig])]
  refine ⟨by simp [modifyFrameEvent, upd], by simp [modifyFrameEvent, upd], ?_⟩
  by_cases hc :
      s.apsCountXReset =
        (if s.apsResetRead = true then
          (s.currentFramePacket.slots s.currentFramePacket.position).lengthX
        else 0) ∧
      s.apsCountXSignal = (s.currentFramePacket.slots s.currentFramePacket.position).lengthX
  · simp [modifyFrameEvent, upd, hc]
  · simp [modifyFrameEvent, upd, hc, hv]

/-- C5 witness: the claim at the fresh DAVIS240 state (where reset reads
are enabled but no columns were counted, and the window width is 240, so
the frame is marked invalid while the position still advances). -/
theorem claim_C5_witness :
    (decodeWord initState240 0x000A).currentFramePacket.position =
        initState240.currentFramePacket.position + 1 ∧
    ((decodeWord initState240 0x000A).currentFramePacket.slots
        initState240.currentFramePacket.position).tsEndOfFrame =
      initState240.currentTimestamp ∧
    (((decodeWord initState240 0x000A).currentFramePacket.slots
        initState240.currentFramePacket.position).valid = true ↔
      (initState240.apsCountXReset =
          (if initState240.apsResetRead = true then
            (initState240.currentFramePacket.slots
              initState240.currentFramePacket.position).lengthX
          else 0) ∧
        initState240.apsCountXSignal =
          (initState240.currentFramePacket.slots
            initState240.currentFramePacket.position).lengthX)) :=
  claim_C5_frame_end_validity initState240 rfl rfl

end LibcaerDavis

namespace LibcaerDavis

@[simp] theorem apsRGBOffsetWalk_currentFramePacket (s : DavisState) :
    (apsRGBOffsetWalk s).currentFramePacket = s.currentFramePacket := by
  simp only [apsRGBOffsetWalk]; split_ifs <;> rfl

@[simp] theorem setApsCountY_currentFramePacket (s : DavisState) (r : ReadoutType) (v : Nat) :
    (s.setApsCountY r v).currentFramePacket = s.currentFramePacket := by
  cases r <;> rfl

/-- Fresh decoder state for a 1×2 window (the S5 global-shutter frame
scenario geometry). -/
def initStateS5 : DavisState :=
  { initState240 with apsWindow0SizeX := 1, apsWindow0SizeY := 2 }

/-- C6: for a signal-phase ADC sample (code-4 word) outside the
DAVIS-RGB-global-shutter special case, with staged reset value R below
the 10-bit ADC range, the pixel stored in the frame event is
`(R − S) << (16 − ADC_DEPTH)` when `R ≥ S` and `0` when `R < S` (S the
sample's 12-bit data field); and the S5 scenario — GS start, reset
column with sample 800, signal column with sample 200, frame end — ends
with one valid frame whose pixel is `(800 − 200) << 6 = 0x9600`. -/
theorem claim_C6_cds_pixel :
    (∀ (s : DavisState) (w R : Nat),
      w &&& 0x8000 = 0 → (w &&& 0x7000) >>> 12 = 4 →
      s.apsIgnoreEvents = false →
      s.apsCurrentReadoutType = ReadoutType.signal →
      ¬(s.chipKind = ChipKind.davisRGB ∧ s.apsGlobalShutter = true) →
      s.apsCountYSignal <
        (s.currentFramePacket.slots s.currentFramePacket.position).lengthY →
      s.apsCurrentResetFrame
          (apsPixelPositionAbs s
            (s.currentFramePacket.slots s.currentFramePacket.position).lengthX
            (s.currentFramePacket.slots s.currentFramePacket.position).lengthY) = R →
      R < 1024 →
      ((decodeWord s w).currentFramePacket.slots s.currentFramePacket.position).pixels
          (apsPixelPosition s
            (s.currentFramePacket.slots s.currentFramePacket.position).lengthX
            (s.currentFramePacket.slots s.currentFramePacket.position).lengthY) =
        (if w &&& 0x0FFF ≤ R then (R - (w &&& 0x0FFF)) * 2 ^ (16 - DAVIS_ADC_DEPTH)
        else 0)) ∧
    (run initStateS5 [0x0008, 0x000B, 0x4320, 0x000D, 0x000C, 0x40C8, 0x000D, 0x000A]).map
        (fun s => (s.currentFramePacket.position, (s.currentFramePacket.slots 0).valid,
          (s.currentFramePacket.slots 0).pixels 0)) =
      some (1, true, 0x9600) := by
  refine ⟨?_, by decide⟩
  intro s w R h0 h4 hig hsig hrgb hcy hR hR1024
  have hd : decodeWord s w = decodeADC s (w &&& 0x0FFF) := by
    delta decodeWord
    rw [if_neg (not_not_intro h0), if_neg (by rw [h4]; decide), if_neg (by rw [h4]; decide),
      if_neg (by rw [h4]; decide), if_pos h4]
  have hguard : ¬((s.currentFramePacket.slots s.currentFramePacket.position).lengthY ≤
      s.apsCountY s.apsCurrentReadoutType) := by
    rw [hsig]; exact not_le.mpr hcy
  rw [hd]
  unfold decodeADC
  rw [if_neg (by simp [hig]), if_neg hguard]
  simp only [apsRGBOffsetWalk_currentFramePacket, setApsCountY_currentFramePacket]
  unfold apsSampleWrite
  have hcond : ¬((s.apsCurrentReadoutType = ReadoutType.reset ∧
        ¬(s.chipKind = ChipKind.davisRGB ∧ s.apsGlobalShutter = true)) ∨
      (s.apsCurrentReadoutType = ReadoutType.signal ∧
        (s.chipKind = ChipKind.davisRGB ∧ s.apsGlobalShutter = true))) := by
    rw [hsig]; simp [hrgb]
  rw [if_neg hcond]
  have hdec : decide (s.chipKind = ChipKind.davisRGB ∧ s.apsGlobalShutter = true) = false :=
    decide_eq_false hrgb
  simp only [modifyFrameEvent, upd, hdec, hR]
  rw [if_pos trivial]
  simp only [upd, eq_self_iff_true, if_true]
  have hd4096 : w &&& 0x0FFF < 4096 :=
    lt_of_le_of_lt (Nat.and_le_right) (by norm_num)
  norm_num [cdsPixelValue, u16ofInt, DAVIS_ADC_DEPTH]
  split_ifs <;> omega

end LibcaerDavis

namespace LibcaerDavis

/-- A decoder state in the APS signal readout phase with reset value 800
staged for the first pixel of a 1×2 frame. -/
def c6WitnessState : DavisState :=
  { initStateS5 with
      apsCurrentReadoutType := ReadoutType.signal,
      apsCurrentResetFrame := upd (fun _ => 0) 0 800,
      currentFramePacket :=
        ⟨4, fun _ => { emptyFrameEvent with lengthX := 1, lengthY := 2 }, 0⟩ }

/-- C6 witness: the CDS claim at the staged state and the sample word
`0x40C8` (S = 200 against R = 800, giving `(800 − 200) << 6`). -/
theorem claim_C6_witness :
    ((decodeWord c6WitnessState 0x40C8).currentFramePacket.slots
        c6WitnessState.currentFramePacket.position).pixels
      (apsPixelPosition c6WitnessState
        (c6WitnessState.currentFramePacket.slots
          c6WitnessState.currentFramePacket.position).lengthX
        (c6WitnessState.currentFramePacket.slots
          c6WitnessState.currentFramePacket.position).lengthY) =
    (if 0x40C8 &&& 0x0FFF ≤ 800 then
      (800 - (0x40C8 &&& 0x0FFF)) * 2 ^ (16 - DAVIS_ADC_DEPTH)
    else 0) :=
  claim_C6_cds_pixel.1 c6WitnessState 0x40C8 800 (by decide) (by decide) rfl rfl
    (by decide) (by decide) (by decide) (by decide)

end LibcaerDavis

namespace LibcaerDavis

/-- C7: decoding the IMU6 End word `0x0007` with `imuIgnoreEvents` clear
validates the in-progress IMU6 event and advances the IMU6 packet
position iff `imuCount = IMU6_COUNT` (14); otherwise (or when ignoring)
the decoder state is unchanged — the assembled samples are discarded and
the position stays put. -/
theorem claim_C7_imu6_end (s : DavisState) :
    (s.imuIgnoreEvents = true → decodeWord s 0x0007 = s) ∧
    (s.imuIgnoreEvents = false → s.imuCount = IMU6_COUNT →
      (decodeWord s 0x0007).currentIMU6Packet.position =
        s.currentIMU6Packet.position + 1 ∧
      (decodeWord s 0x0007).currentIMU6Packet.slots s.currentIMU6Packet.position =
        { s.currentIMU6Packet.slots s.currentIMU6Packet.position with valid := true }) ∧
    (s.imuIgnoreEvents = false → s.imuCount ≠ IMU6_COUNT → decodeWord s 0x0007 = s) := by
  have hd : decodeWord s 0x0007 = specialIMU6End s := rfl
  refine ⟨?_, ?_, ?_⟩ <;> rw [hd] <;> unfold specialIMU6End
  · intro h
    rw [if_pos h]
  · intro h hc
    rw [if_neg (by simp [h]), if_pos hc]
    refine ⟨?_, ?_⟩ <;> simp [modifyIMU6Event, upd]
  · intro h hc
    rw [if_neg (by simp [h]), if_neg hc]

/-- A decoder state with a completed 14-byte IMU assembly. -/
def c7WitnessState : DavisState := { initState240 with imuCount := 14 }

/-- C7 witness: the claim at a state with `imuCount = 14` (validate and
advance) and at the fresh state with `imuCount = 0` (discard). -/
theorem claim_C7_witness :
    ((decodeWord c7WitnessState 0x0007).currentIMU6Packet.position =
        c7WitnessState.currentIMU6Packet.position + 1 ∧
      (decodeWord c7WitnessState 0x0007).currentIMU6Packet.slots
          c7WitnessState.currentIMU6Packet.position =
        { c7WitnessState.currentIMU6Packet.slots c7WitnessState.currentIMU6Packet.position
            with valid := true }) ∧
    decodeWord initState240 0x0007 = initState240 :=
  ⟨(claim_C7_imu6_end c7WitnessState).2.1 rfl rfl,
    (claim_C7_imu6_end initState240).2.2 rfl (by decide)⟩

end LibcaerDavis

namespace LibcaerDavis

/-- The fate of one `ringBufferPut` attempt inside a fired commit. -/
inductive CommitDelivery where
  | enqueued (b : RingBuffer)
  | dropped
  | spinning

/-- The polarity commit's put attempt: a full buffer drops the packet. -/
def polarityPutOutcome (b : RingBuffer) (p : Packet PolarityEvent) : CommitDelivery :=
  match ringBufferPut b (CommittedPacket.polarity p) with
  | some b' => CommitDelivery.enqueued b'
  | none => CommitDelivery.dropped

/-- The frame commit's put attempt: a full buffer drops the packet. -/
def framePutOutcome (b : RingBuffer) (p : Packet FrameEvent) : CommitDelivery :=
  match ringBufferPut b (CommittedPacket.frame p) with
  | some b' => CommitDelivery.enqueued b'
  | none => CommitDelivery.dropped

/-- The IMU6 commit's put attempt: a full buffer drops the packet. -/
def imu6PutOutcome (b : RingBuffer) (p : Packet IMU6Event) : CommitDelivery :=
  match ringBufferPut b (CommittedPacket.imu6 p) with
  | some b' => CommitDelivery.enqueued b'
  | none => CommitDelivery.dropped

/-- The special commit's put attempt: on a full buffer the packet is
dropped only without `forcePacketCommit`; with it the code jumps back to
`retry_special` (spins). -/
def specialPutOutcome (b : RingBuffer) (p : Packet SpecialEvent) (force : Bool) :
    CommitDelivery :=
  match ringBufferPut b (CommittedPacket.special p) with
  | some b' => CommitDelivery.enqueued b'
  | none => if force then CommitDelivery.spinning else CommitDelivery.dropped

/-- The `retry_special` spin against the trace of buffer states the
consumer produces while the producer retries: the packet is enqueued at
the first instant the buffer has room (which the hypothesis says
eventually happens). -/
def specialRetrySpin (bufs : Nat → RingBuffer) (p : Packet SpecialEvent)
    (h : ∃ n, (bufs n).items.length < (bufs n).capacity) : RingBuffer :=
  { bufs (Nat.find h) with
      items := (bufs (Nat.find h)).items ++ [CommittedPacket.special p] }

/-- C8: when a commit fires against a full exchange buffer, a Polarity,
Frame or IMU6 packet is dropped (buffer unchanged, fresh packet
allocated); a Special packet is dropped only when `forcePacketCommit` is
clear — with it set the commit spins (in the step model: `none`), and as
soon as the buffer has room the retried put succeeds, so the
TIMESTAMP_RESET special packet is never lost. -/
theorem claim_C8_backpressure :
    (∀ (b : RingBuffer) (p : Packet PolarityEvent),
      b.capacity ≤ b.items.length → polarityPutOutcome b p = CommitDelivery.dropped) ∧
    (∀ (b : RingBuffer) (p : Packet FrameEvent),
      b.capacity ≤ b.items.length → framePutOutcome b p = CommitDelivery.dropped) ∧
    (∀ (b : RingBuffer) (p : Packet IMU6Event),
      b.capacity ≤ b.items.length → imu6PutOutcome b p = CommitDelivery.dropped) ∧
    (∀ (b : RingBuffer) (p : Packet SpecialEvent) (force : Bool),
      specialPutOutcome b p force = CommitDelivery.dropped → force = false) ∧
    (∀ (s : DavisState),
      s.dataExchangeBuffer.capacity ≤ s.dataExchangeBuffer.items.length →
      (commitPolarity true s).dataExchangeBuffer = s.dataExchangeBuffer ∧
      (commitPolarity true s).currentPolarityPacket =
        freshPacket s.maxPolarityPacketSize emptyPolarityEvent ∧
      commitSpecial true s = none) ∧
    (∀ (bufs : Nat → RingBuffer) (p : Packet SpecialEvent)
      (h : ∃ n, (bufs n).items.length < (bufs n).capacity),
      ringBufferPut (bufs (Nat.find h)) (CommittedPacket.special p) =
        some (specialRetrySpin bufs p h) ∧
      CommittedPacket.special p ∈ (specialRetrySpin bufs p h).items) := by
  refine ⟨?_, ?_, ?_, ?_, ?_, ?_⟩
  · intro b p h
    unfold polarityPutOutcome ringBufferPut
    rw [if_neg (not_lt.mpr h)]
  · intro b p h
    unfold framePutOutcome ringBufferPut
    rw [if_neg (not_lt.mpr h)]
  · intro b p h
    unfold imu6PutOutcome ringBufferPut
    rw [if_neg (not_lt.mpr h)]
  · intro b p force h
    unfold specialPutOutcome ringBufferPut at h
    by_cases hr : b.items.length < b.capacity
    · rw [if_pos hr] at h
      exact absurd h (by simp)
    · rw [if_neg hr] at h
      cases force
      · rfl
      · simp at h
  · intro s h
    have hfull : ¬ s.dataExchangeBuffer.items.length < s.dataExchangeBuffer.capacity :=
      not_lt.mpr h
    refine ⟨?_, ?_, ?_⟩
    · unfold commitPolarity
      rw [if_pos (show polarityCommitCond s true from Or.inl rfl)]
      unfold ringBufferPut
      rw [if_neg hfull]
    · unfold commitPolarity
      rw [if_pos (show polarityCommitCond s true from Or.inl rfl)]
    · unfold commitSpecial
      rw [if_pos (show specialCommitCond s true from Or.inl rfl)]
      unfold ringBufferPut
      rw [if_neg hfull]
      rfl
  · intro bufs p h
    refine ⟨?_, ?_⟩
    · unfold ringBufferPut specialRetrySpin
      rw [if_pos (Nat.find_spec h)]
    · simp [specialRetrySpin]

end LibcaerDavis

namespace LibcaerDavis

/-- A streaming state whose exchange buffer can hold nothing. -/
def c8FullState : DavisState := { initState240 with dataExchangeBuffer := ⟨0, []⟩ }

/-- A consumer trace with room from the first retry. -/
def c8Trace : Nat → RingBuffer := fun _ => ⟨1, []⟩

theorem c8TraceRoom : ∃ n, (c8Trace n).items.length < (c8Trace n).capacity :=
  ⟨0, by decide⟩

/-- C8 witness: the backpressure claim at a zero-capacity buffer (drop
and spin outcomes) and at a trace with room (the retried special put
succeeds). -/
theorem claim_C8_witness :
    polarityPutOutcome ⟨0, []⟩ (freshPacket 1 emptyPolarityEvent) =
      CommitDelivery.dropped ∧
    specialPutOutcome ⟨0, []⟩ (freshPacket 1 emptySpecialEvent) true ≠
      CommitDelivery.dropped ∧
    commitSpecial true c8FullState = none ∧
    CommittedPacket.special (freshPacket 1 emptySpecialEvent) ∈
      (specialRetrySpin c8Trace (freshPacket 1 emptySpecialEvent) c8TraceRoom).items :=
  ⟨claim_C8_backpressure.1 ⟨0, []⟩ (freshPacket 1 emptyPolarityEvent) (by decide),
    fun hd => by
      simpa using claim_C8_backpressure.2.2.2.1 ⟨0, []⟩ (freshPacket 1 emptySpecialEvent)
        true hd,
    (claim_C8_backpressure.2.2.2.2.1 c8FullState (by decide)).2.2,
    (claim_C8_backpressure.2.2.2.2.2 c8Trace (freshPacket 1 emptySpecialEvent)
      c8TraceRoom).2⟩

end LibcaerDavis

namespace LibcaerDavis

/-- The outcome of each fallible call `davisCommonDataStart` makes, in
source order. -/
structure StartAllocs where
  ringBufferOk : Bool
  containerOk : Bool
  polarityOk : Bool
  specialOk : Bool
  frameOk : Bool
  imu6Ok : Bool
  resetFrameOk : Bool
  threadOk : Bool
deriving DecidableEq, Repr

/-- What `davisCommonDataStart` leaves behind: its return value, whether
the acquisition thread was spawned, and which data allocations are still
live when it returns (`freeAllDataMemory` clears them all). -/
structure StartResult where
  success : Bool
  threadSpawned : Bool
  liveRingBuffer : Bool
  liveContainer : Bool
  livePolarity : Bool
  liveSpecial : Bool
  liveFrame : Bool
  liveIMU6 : Bool
  liveResetFrame : Bool
deriving DecidableEq, Repr

/-- All-freed failure return (the failure paths call `freeAllDataMemory`
before returning false; the very first one has nothing to free). -/
def startFailed : StartResult :=
  ⟨false, false, false, false, false, false, false, false, false⟩

/-- `davisCommonDataStart` as a function of its allocation outcomes.
Every failed allocation up to the IMU6 packet frees everything and
returns false.  The reset-frame staging `calloc` result is stored, but
the following NULL check re-tests `state->currentIMU6Packet` (part_000
lines 205–212) — which is non-NULL at that point — so a failed
reset-frame allocation goes undetected and Start proceeds to spawn the
acquisition thread and return true. -/
def davisCommonDataStart (a : StartAllocs) : StartResult :=
  if a.ringBufferOk = false then startFailed
  else if a.containerOk = false then startFailed
  else if a.polarityOk = false then startFailed
  else if a.specialOk = false then startFailed
  else if a.frameOk = false then startFailed
  else if a.imu6Ok = false then startFailed
  -- The check placed after the reset-frame `calloc` re-tests the IMU6
  -- packet pointer instead of `apsCurrentResetFrame` (the copy-paste
  -- bug): at this point `imu6Ok` already held, so the branch is dead
  -- and `resetFrameOk` is never examined.
  else if a.imu6Ok = false then startFailed
  else if a.threadOk = false then startFailed
  else ⟨true, true, true, true, true, true, true, true, a.resetFrameOk⟩

/-- C9 (code bug): when every allocation succeeds except the reset-frame
staging buffer, Start must — per the claim — return false, free
everything, and spawn no worker; the code instead returns true and
spawns the acquisition thread with a NULL `apsCurrentResetFrame`,
because the post-`calloc` check re-tests `currentIMU6Packet`.  The other
allocation failures do behave as claimed (shown here for the exchange
buffer and the IMU6 packet). -/
theorem claim_C9_reset_frame_check_bug :
    davisCommonDataStart ⟨true, true, true, true, true, true, false, true⟩ =
      ⟨true, true, true, true, true, true, true, true, false⟩ ∧
    davisCommonDataStart ⟨false, true, true, true, true, true, true, true⟩ =
      startFailed ∧
    davisCommonDataStart ⟨true, true, true, true, true, false, true, true⟩ =
      startFailed := by
  exact ⟨rfl, rfl, rfl⟩

end LibcaerDavis

namespace LibcaerDavis

/-! Dispatch lemmas for the top-level code switch of `decodeWord`. -/

theorem decodeWord_special (s : DavisState) (w : Nat)
    (h0 : w &&& 0x8000 = 0) (hc : (w &&& 0x7000) >>> 12 = 0) :
    decodeWord s w = decodeSpecial s (w &&& 0x0FFF) := by
  delta decodeWord
  rw [if_neg (not_not_intro h0), if_pos hc]

theorem decodeWord_y (s : DavisState) (w : Nat)
    (h0 : w &&& 0x8000 = 0) (hc : (w &&& 0x7000) >>> 12 = 1) :
    decodeWord s w = decodeY s (w &&& 0x0FFF) := by
  delta decodeWord
  rw [if_neg (not_not_intro h0), if_neg (by rw [hc]; decide), if_pos hc]

theorem decodeWord_x (s : DavisState) (w : Nat)
    (h0 : w &&& 0x8000 = 0)
    (hc : (w &&& 0x7000) >>> 12 = 2 ∨ (w &&& 0x7000) >>> 12 = 3) :
    decodeWord s w = decodeX s ((w &&& 0x7000) >>> 12) (w &&& 0x0FFF) := by
  delta decodeWord
  rw [if_neg (not_not_intro h0), if_neg (by rcases hc with h | h <;> rw [h] <;> decide),
    if_neg (by rcases hc with h | h <;> rw [h] <;> decide), if_pos hc]

theorem decodeWord_adc (s : DavisState) (w : Nat)
    (h0 : w &&& 0x8000 = 0) (hc : (w &&& 0x7000) >>> 12 = 4) :
    decodeWord s w = decodeADC s (w &&& 0x0FFF) := by
  delta decodeWord
  rw [if_neg (not_not_intro h0), if_neg (by rw [hc]; decide), if_neg (by rw [hc]; decide),
    if_neg (by rw [hc]; decide), if_pos hc]

theorem decodeWord_misc8 (s : DavisState) (w : Nat)
    (h0 : w &&& 0x8000 = 0) (hc : (w &&& 0x7000) >>> 12 = 5) :
    decodeWord s w = decodeMisc8 s (w &&& 0x0FFF) := by
  delta decodeWord
  rw [if_neg (not_not_intro h0), if_neg (by rw [hc]; decide), if_neg (by rw [hc]; decide),
    if_neg (by rw [hc]; decide), if_neg (by rw [hc]; decide), if_pos hc]

end LibcaerDavis

namespace LibcaerDavis

/-- APS data words: ADC samples (code 4) and the APS specials gated by
`apsIgnoreEvents` (frame end 10, column starts 11/12, column end 13). -/
def isApsDataWord (w : Nat) : Prop :=
  w &&& 0x8000 = 0 ∧
    ((w &&& 0x7000) >>> 12 = 4 ∨
      ((w &&& 0x7000) >>> 12 = 0 ∧
        (w &&& 0x0FFF = 10 ∨ w &&& 0x0FFF = 11 ∨ w &&& 0x0FFF = 12 ∨ w &&& 0x0FFF = 13)))

/-- APS frame-start markers (specials 8, 9, 14, 15). -/
def isApsStartWord (w : Nat) : Prop :=
  w &&& 0x8000 = 0 ∧ (w &&& 0x7000) >>> 12 = 0 ∧
    (w &&& 0x0FFF = 8 ∨ w &&& 0x0FFF = 9 ∨ w &&& 0x0FFF = 14 ∨ w &&& 0x0FFF = 15)

/-- IMU data words: IMU end (special 7), IMU scale config (specials
16–31), and misc-8 IMU sample bytes (code 5, sub-code 0). -/
def isImuDataWord (w : Nat) : Prop :=
  w &&& 0x8000 = 0 ∧
    (((w &&& 0x7000) >>> 12 = 0 ∧
        (w &&& 0x0FFF = 7 ∨ (16 ≤ w &&& 0x0FFF ∧ w &&& 0x0FFF ≤ 31))) ∨
      ((w &&& 0x7000) >>> 12 = 5 ∧ (w &&& 0x0FFF &&& 0x0F00) >>> 8 = 0))

/-- The IMU6 start marker (special 5). -/
def isImuStartWord (w : Nat) : Prop :=
  w &&& 0x8000 = 0 ∧ (w &&& 0x7000) >>> 12 = 0 ∧ w &&& 0x0FFF = 5

/-- C10: whenever the frame (respectively IMU6) commit check fires —
put success or drop alike — the commit leaves `apsIgnoreEvents`
(respectively `imuIgnoreEvents`) set; while the flag is set every APS
(respectively IMU) data word leaves the decoder state unchanged; and an
APS frame-start (respectively IMU start) marker clears the flag. -/
theorem claim_C10_ignore_flags :
    (∀ (s : DavisState) (force : Bool),
      frameCommitCond s force → (commitFrame force s).apsIgnoreEvents = true) ∧
    (∀ (s : DavisState) (force : Bool),
      imu6CommitCond s force → (commitIMU6 force s).imuIgnoreEvents = true) ∧
    (∀ (s : DavisState) (w : Nat),
      s.apsIgnoreEvents = true → isApsDataWord w → decodeWord s w = s) ∧
    (∀ (s : DavisState) (w : Nat),
      isApsStartWord w → (decodeWord s w).apsIgnoreEvents = false) ∧
    (∀ (s : DavisState) (w : Nat),
      s.imuIgnoreEvents = true → isImuDataWord w → decodeWord s w = s) ∧
    (∀ (s : DavisState) (w : Nat),
      isImuStartWord w → (decodeWord s w).imuIgnoreEvents = false) := by
  refine ⟨?_, ?_, ?_, ?_, ?_, ?_⟩
  · intro s force h
    unfold commitFrame
    rw [if_pos h]
  · intro s force h
    unfold commitIMU6
    rw [if_pos h]
  · intro s w hig hw
    obtain ⟨h0, hcase⟩ := hw
    rcases hcase with h4 | ⟨hc0, hd⟩
    · rw [decodeWord_adc s w h0 h4]
      unfold decodeADC
      rw [if_pos hig]
    · rw [decodeWord_special s w h0 hc0]
      rcases hd with h | h | h | h <;> rw [h]
      · rw [decodeSpecial_d10]
        unfold specialAPSFrameEnd
        rw [if_pos hig]
      · rw [decodeSpecial_d11]
        unfold specialAPSResetColStart
        rw [if_pos hig]
      · rw [decodeSpecial_d12]
        unfold specialAPSSignalColStart
        rw [if_pos hig]
      · rw [decodeSpecial_d13]
        unfold specialAPSColEnd
        rw [if_pos hig]
  · intro s w hw
    obtain ⟨h0, hc0, hd⟩ := hw
    rw [decodeWord_special s w h0 hc0]
    rcases hd with h | h | h | h <;> rw [h] <;> rfl
  · intro s w hig hw
    obtain ⟨h0, hcase⟩ := hw
    rcases hcase with ⟨hc0, hd⟩ | ⟨hc5, hm0⟩
    · rw [decodeWord_special s w h0 hc0]
      rcases hd with h | h
      · rw [h, decodeSpecial_d7]
        unfold specialIMU6End
        rw [if_pos hig]
      · rw [decodeSpecial_scale s _ h.1 h.2]
        unfold specialIMUScaleConfig
        rw [if_pos hig]
    · rw [decodeWord_misc8 s w h0 hc5]
      unfold decodeMisc8
      rw [if_pos hm0, if_pos hig]
  · intro s w hw
    obtain ⟨h0, hc0, hd⟩ := hw
    rw [decodeWord_special s w h0 hc0, hd]
    rfl

end LibcaerDavis

namespace LibcaerDavis

instance (w : Nat) : Decidable (isApsDataWord w) := by
  unfold isApsDataWord; infer_instance

instance (w : Nat) : Decidable (isApsStartWord w) := by
  unfold isApsStartWord; infer_instance

instance (w : Nat) : Decidable (isImuDataWord w) := by
  unfold isImuDataWord; infer_instance

instance (w : Nat) : Decidable (isImuStartWord w) := by
  unfold isImuStartWord; infer_instance

/-- Decoder states with the APS / IMU resynchronization flags raised. -/
def c10ApsIgnoreState : DavisState := { initState240 with apsIgnoreEvents := true }

def c10ImuIgnoreState : DavisState := { initState240 with imuIgnoreEvents := true }

/-- C10 witness: the ignore-flag claim at concrete inputs — a forced
frame and IMU6 commit on the fresh state, an ADC word and an IMU-end
word against raised flags, and the frame-start / IMU-start markers. -/
theorem claim_C10_witness :
    (commitFrame true initState240).apsIgnoreEvents = true ∧
    (commitIMU6 true initState240).imuIgnoreEvents = true ∧
    decodeWord c10ApsIgnoreState 0x4123 = c10ApsIgnoreState ∧
    (decodeWord initState240 0x0008).apsIgnoreEvents = false ∧
    decodeWord c10ImuIgnoreState 0x0007 = c10ImuIgnoreState ∧
    (decodeWord initState240 0x0005).imuIgnoreEvents = false :=
  ⟨claim_C10_ignore_flags.1 initState240 true (Or.inl rfl),
    claim_C10_ignore_flags.2.1 initState240 true (Or.inl rfl),
    claim_C10_ignore_flags.2.2.1 c10ApsIgnoreState 0x4123 rfl (by decide),
    claim_C10_ignore_flags.2.2.2.1 initState240 0x0008 (by decide),
    claim_C10_ignore_flags.2.2.2.2.1 c10ImuIgnoreState 0x0007 rfl (by decide),
    claim_C10_ignore_flags.2.2.2.2.2 initState240 0x0005 (by decide)⟩

end LibcaerDavis
